import Mathlib

/-!
# Neon Snake: the game loop core of `game.js`

A shallow embedding of the logic of `src/game.js`: the global objects `CONFIG`,
`snake`, `food` and `inputQueue` become one explicit `GameState` record that every
function takes and returns.  Drawing, audio, the DOM and the particle list are left
out: no logic tick reads them.

* `Math.random()` is an input: a function that draws takes a list of `Rand` values
  (fractions in `[0, 1)`) and hands back the unused rest.  `none` means that the
  draws supplied ran out before the function returned.  The draws that
  `createParticles` and the screen shake consume are not part of the list.
* Host timers (`setTimeout` / `clearTimeout`) are an explicit list of pending
  timers with fresh numeric handles; a timer fires as an event of its own.
* Timestamps and the accumulator are exact rationals.
-/

namespace NeonSnake

/-- An `{x, y}` object of game.js: a grid cell or a direction vector. -/
structure Vec where
  x : Int
  y : Int
deriving DecidableEq, Repr

/-- The keys of the `DIFFICULTY` table. -/
inductive Difficulty where
  | easy
  | medium
  | hard
  | extreme
deriving DecidableEq, Repr

/-- One entry of the `DIFFICULTY` table. -/
structure DifficultySettings where
  startSpeed : Int
  speedIncrease : Int
  levelThreshold : Int
deriving DecidableEq, Repr

/-- The `DIFFICULTY` table (game.js lines 22-43). -/
def DIFFICULTY : Difficulty → DifficultySettings
  | .easy => { startSpeed := 150, speedIncrease := 3, levelThreshold := 50 }
  | .medium => { startSpeed := 120, speedIncrease := 5, levelThreshold := 40 }
  | .hard => { startSpeed := 100, speedIncrease := 8, levelThreshold := 30 }
  | .extreme => { startSpeed := 80, speedIncrease := 15, levelThreshold := 25 }

/-- The constant `CONFIG.tileCountX`. -/
def tileCountX : Int := 50

/-- The constant `CONFIG.tileCountY`. -/
def tileCountY : Int := 38

/-- One value of `Math.random()`: the fraction `num / den`, which lies in `[0, 1)`. -/
structure Rand where
  num : Nat
  den : Nat
  lt : num < den
deriving DecidableEq

/-- The expression `Math.floor(Math.random() * n)` for the draw `r`. -/
def randFloor (r : Rand) (n : Int) : Int :=
  ((r.num : Int) * n) / (r.den : Int)

/-- The callbacks that game.js registers with `setTimeout`. -/
inductive TimerKind where
  | wallGrace
  | tailGrace
  | deathShake
deriving DecidableEq, Repr

/-- The global `snake` object; the grace flags are `undefined` (falsy) until first set. -/
structure Snake where
  body : List Vec
  direction : Vec
  nextDirection : Vec
  wallGraceActive : Bool
  wallGraceTimeout : Option Nat
  tailGraceActive : Bool
  tailGraceTimeout : Option Nat
deriving DecidableEq, Repr

/-- The global `food` object. -/
structure Food where
  position : Vec
  glowIntensity : Int
deriving DecidableEq, Repr

/-- The object `CONFIG.render`; `accumulator` is `undefined` until first set. -/
structure Render where
  lastTime : ℚ
  accumulator : Option ℚ
deriving DecidableEq

/-- The mutable fields of the global `CONFIG` object that the game logic uses. -/
structure Config where
  baseSpeed : Int
  currentSpeed : Int
  score : Int
  level : Int
  highScore : Int
  isPaused : Bool
  gameStarted : Bool
  selectedDifficulty : Difficulty
  render : Render
deriving DecidableEq

/-- The whole mutable state of the page.  `timers` and `nextTimerId` are the host's
timer table; `gameOverCalls` and `logicTicks` count the calls of `gameOver` and the
calls of `gameUpdateLogic` made by `render`. -/
structure GameState where
  config : Config
  snake : Snake
  food : Food
  inputQueue : List Vec
  timers : List (Nat × TimerKind)
  nextTimerId : Nat
  gameOverCalls : Nat
  logicTicks : Nat
deriving DecidableEq

/-- The test `a.x === -b.x && a.y === -b.y`. -/
def isOpposite (a b : Vec) : Bool :=
  a.x == -b.x && a.y == -b.y

/-- The test `a.x === b.x && a.y === b.y`. -/
def sameCell (a b : Vec) : Bool :=
  a.x == b.x && a.y == b.y

/-- The function `checkSelfCollision` (lines 350-357): the head is compared with every
segment of the body. -/
def checkSelfCollision (body : List Vec) (head : Vec) : Bool :=
  body.any (fun seg => sameCell head seg)

/-- The function `generateFood` (lines 360-377): draw a cell until one is free. -/
def generateFood (body : List Vec) (food : Food) : List Rand → Option (Food × List Rand)
  | rx :: ry :: rest =>
    let pos : Vec := { x := randFloor rx tileCountX, y := randFloor ry tileCountY }
    if body.any (fun segment => sameCell segment pos) then
      generateFood body { food with position := pos } rest
    else
      some ({ food with position := pos, glowIntensity := 0 }, rest)
  | _ => none

/-- The host call `setTimeout(callback, delay)`: registers the callback under a fresh
handle and returns the handle. -/
def setTimeout (s : GameState) (kind : TimerKind) : GameState × Nat :=
  ({ s with timers := s.timers ++ [(s.nextTimerId, kind)], nextTimerId := s.nextTimerId + 1 },
    s.nextTimerId)

/-- The host call `clearTimeout(handle)`; an `undefined` handle cancels nothing. -/
def clearTimeout (s : GameState) : Option Nat → GameState
  | none => s
  | some id => { s with timers := s.timers.filter (fun t => t.1 != id) }

/-- The function `gameOver` (lines 721-739). -/
def gameOver (s : GameState) : GameState :=
  let s := (setTimeout s .deathShake).1
  let highScore := if s.config.score > s.config.highScore then s.config.score
    else s.config.highScore
  { s with
    config := { s.config with highScore := highScore, gameStarted := false }
    gameOverCalls := s.gameOverCalls + 1 }

/-- Lines 260-271 of `gameUpdateLogic`: pop one queued input, apply it unless it is the
opposite of the current direction, then commit `nextDirection`. -/
def applyQueuedInput (s : GameState) : GameState :=
  let s :=
    match s.inputQueue with
    | [] => s
    | q :: rest =>
      if !(isOpposite q s.snake.direction) then
        { s with snake := { s.snake with nextDirection := q }, inputQueue := rest }
      else
        { s with inputQueue := rest }
  { s with snake := { s.snake with direction := s.snake.nextDirection } }

/-- The bounds test of lines 279-282. -/
def outOfBounds (head : Vec) : Bool :=
  decide (head.x < 0) || decide (head.x ≥ tileCountX) || decide (head.y < 0)
    || decide (head.y ≥ tileCountY)

/-- Lines 285-291: raise the wall grace flag and start its timer. -/
def startWallGrace (s : GameState) : GameState :=
  let r := setTimeout s .wallGrace
  { r.1 with snake := { r.1.snake with wallGraceActive := true, wallGraceTimeout := some r.2 } }

/-- Lines 296-299: a head back in bounds cancels a pending wall grace. -/
def endWallGrace (s : GameState) : GameState :=
  if s.snake.wallGraceActive then
    let s := clearTimeout s s.snake.wallGraceTimeout
    { s with snake := { s.snake with wallGraceActive := false } }
  else s

/-- Lines 305-311: raise the tail grace flag and start its timer. -/
def startTailGrace (s : GameState) : GameState :=
  let r := setTimeout s .tailGrace
  { r.1 with snake := { r.1.snake with tailGraceActive := true, tailGraceTimeout := some r.2 } }

/-- Lines 316-319: a head on a free cell cancels a pending tail grace. -/
def endTailGrace (s : GameState) : GameState :=
  if s.snake.tailGraceActive then
    let s := clearTimeout s s.snake.tailGraceTimeout
    { s with snake := { s.snake with tailGraceActive := false } }
  else s

/-- Lines 331-343: recompute the level from the score and speed up on a level-up. -/
def levelProgression (s : GameState) : GameState :=
  let diff := DIFFICULTY s.config.selectedDifficulty
  let newLevel := s.config.score / diff.levelThreshold + 1
  if newLevel > s.config.level then
    { s with config := { s.config with
        level := newLevel
        currentSpeed := max 30 (s.config.baseSpeed - newLevel * diff.speedIncrease) } }
  else s

/-- Lines 273-275: the candidate head, the first segment moved by the direction.  An
empty body has no first segment. -/
def nextHead (s : GameState) : Option Vec :=
  match s.snake.body with
  | [] => none
  | h0 :: _ => some { x := h0.x + s.snake.direction.x, y := h0.y + s.snake.direction.y }

/-- Line 321: `snake.body.unshift(head)`. -/
def growHead (s : GameState) (head : Vec) : GameState :=
  { s with snake := { s.snake with body := head :: s.snake.body } }

/-- Line 325: `CONFIG.score += 10`. -/
def addScore (s : GameState) : GameState :=
  { s with config := { s.config with score := s.config.score + 10 } }

/-- Line 345: `snake.body.pop()`. -/
def dropTail (s : GameState) : GameState :=
  { s with snake := { s.snake with body := s.snake.body.dropLast } }

/-- The function `gameUpdateLogic` (lines 258-347), one logic tick.  An empty body is
outside the model (`none`); otherwise `none` only arises from `generateFood`. -/
def gameUpdateLogic (s : GameState) (draws : List Rand) : Option (GameState × List Rand) :=
  let s := applyQueuedInput s
  match nextHead s with
  | none => none
  | some head =>
    if outOfBounds head then
      if !s.snake.wallGraceActive then some (startWallGrace s, draws)
      else some (s, draws)
    else
      let s := endWallGrace s
      if checkSelfCollision s.snake.body head then
        if !s.snake.tailGraceActive then some (startTailGrace s, draws)
        else some (s, draws)
      else
        let s := growHead (endTailGrace s) head
        if sameCell head s.food.position then
          let s := addScore s
          match generateFood s.snake.body s.food draws with
          | none => none
          | some (food, rest) => some (levelProgression { s with food := food }, rest)
        else
          some (dropTail s, draws)

/-- The tick from `s` is a valid move (head in bounds and on no body segment) whose
new head is the food cell: the branch of lines 324-343. -/
def tickEats (s : GameState) : Bool :=
  let s1 := applyQueuedInput s
  match nextHead s1 with
  | none => false
  | some head =>
    !(outOfBounds head) && !(checkSelfCollision s1.snake.body head)
      && sameCell head s1.food.position

/-- The catch-up loop of `render` (lines 434-437); `fuel` bounds the number of
iterations, and `none` means the bound or the draws ran out. -/
def catchUp : Nat → GameState → List Rand → Option (GameState × List Rand)
  | fuel, s, draws =>
    match s.config.render.accumulator with
    | none => some (s, draws)
    | some acc =>
      if acc ≥ (s.config.currentSpeed : ℚ) then
        match fuel with
        | 0 => none
        | fuel + 1 =>
          match gameUpdateLogic s draws with
          | none => none
          | some (s1, rest) =>
            catchUp fuel
              { s1 with
                config := { s1.config with render := { s1.config.render with
                  accumulator := some (acc - (s1.config.currentSpeed : ℚ)) } }
                logicTicks := s1.logicTicks + 1 }
              rest
      else some (s, draws)

/-- The frame delta of `render` (lines 425-426): `lastTime` is first set to the
timestamp when it is still `0`, then the difference is capped at 50. -/
def frameDelta (s : GameState) (timestamp : ℚ) : ℚ :=
  let lastTime := if s.config.render.lastTime = 0 then timestamp else s.config.render.lastTime
  min 50 (timestamp - lastTime)

/-- The logic part of `render` (lines 423-438). -/
def render (fuel : Nat) (s : GameState) (timestamp : ℚ) (draws : List Rand) :
    Option (GameState × List Rand) :=
  let dt := frameDelta s timestamp
  let s := { s with config := { s.config with render := { s.config.render with
    lastTime := timestamp } } }
  if s.config.gameStarted && !s.config.isPaused then
    let acc : ℚ := match s.config.render.accumulator with
      | none => 0
      | some a => a
    catchUp fuel
      { s with config := { s.config with render := { s.config.render with
        accumulator := some (acc + dt) } } }
      draws
  else some (s, draws)

/-- The keys that `handleKeyPress` tells apart: the space bar, the four directions
(arrows and their letter aliases) and every other key. -/
inductive Key where
  | space
  | up
  | down
  | left
  | right
  | other
deriving DecidableEq, Repr

/-- The `switch` of lines 655-676. -/
def desiredDirection : Key → Option Vec
  | .up => some { x := 0, y := -1 }
  | .down => some { x := 0, y := 1 }
  | .left => some { x := -1, y := 0 }
  | .right => some { x := 1, y := 0 }
  | _ => none

/-- The `nearWall` test of lines 688-696, with both danger zones equal to 5. -/
def nearWall (s : GameState) : Bool :=
  match s.snake.body with
  | [] => false
  | head :: _ =>
    decide (head.x < 5) || decide (head.x ≥ tileCountX - 5) || decide (head.y < 5)
      || decide (head.y ≥ tileCountY - 5)

/-- The dynamic capacity `maxQueue` of line 697. -/
def maxQueue (s : GameState) : Nat :=
  if nearWall s then 4 else 2

/-- The function `handleKeyPress` (lines 643-718). -/
def handleKeyPress (s : GameState) (key : Key) : GameState :=
  if !s.config.gameStarted then s
  else if key = .space then
    { s with config := { s.config with isPaused := !s.config.isPaused } }
  else
    match desiredDirection key with
    | none => s
    | some desired =>
      if isOpposite desired s.snake.direction then s
      else
        let lastDir := match s.inputQueue.getLast? with
          | some d => d
          | none => s.snake.nextDirection
        let isDifferent := lastDir.x != desired.x || lastDir.y != desired.y
        let isNotOpposite := !(isOpposite desired lastDir)
        if isDifferent && isNotOpposite then
          if s.inputQueue.length < maxQueue s then
            { s with inputQueue := s.inputQueue ++ [desired] }
          else
            { s with inputQueue := s.inputQueue.tail ++ [desired] }
        else s

/-- The function `startGame` (lines 211-224). -/
def startGame (s : GameState) : GameState :=
  let diff := DIFFICULTY s.config.selectedDifficulty
  { s with config := { s.config with
      baseSpeed := diff.startSpeed
      currentSpeed := diff.startSpeed
      gameStarted := true
      isPaused := false
      render := { s.config.render with accumulator := some 0 } } }

/-- The random start cell of lines 228-232 and 747-751, margin 8. -/
def startCell (rx ry : Rand) : Vec :=
  { x := 8 + randFloor rx (tileCountX - 8 * 2), y := 8 + randFloor ry (tileCountY - 8 * 2) }

/-- The function `restartGame` (lines 227-255). -/
def restartGame (s : GameState) : List Rand → Option (GameState × List Rand)
  | rx :: ry :: draws =>
    let s := { s with
      snake := { s.snake with
        body := [startCell rx ry]
        direction := { x := 1, y := 0 }
        nextDirection := { x := 1, y := 0 } }
      inputQueue := []
      config := { s.config with score := 0, level := 1 } }
    match generateFood s.snake.body s.food draws with
    | none => none
    | some (food, rest) =>
      let diff := DIFFICULTY s.config.selectedDifficulty
      some ({ s with
        food := food
        config := { s.config with
          baseSpeed := diff.startSpeed
          currentSpeed := diff.startSpeed
          isPaused := false
          render := { s.config.render with accumulator := some 0 } } }, rest)
  | _ => none

/-- The function `returnToStart` (lines 742-770). -/
def returnToStart (s : GameState) : List Rand → Option (GameState × List Rand)
  | rx :: ry :: draws =>
    let s := { s with
      config := { s.config with gameStarted := false, isPaused := false, score := 0, level := 1 }
      inputQueue := []
      snake := { s.snake with
        body := [startCell rx ry]
        direction := { x := 1, y := 0 }
        nextDirection := { x := 1, y := 0 } } }
    match generateFood s.snake.body s.food draws with
    | none => none
    | some (food, rest) => some ({ s with food := food }, rest)
  | _ => none

/-- The state built by the top-level declarations of game.js (lines 2-77). -/
def loadState : GameState :=
  { config := {
      baseSpeed := 150, currentSpeed := 150, score := 0, level := 1, highScore := 0
      isPaused := false, gameStarted := false, selectedDifficulty := .medium
      render := { lastTime := 0, accumulator := none } }
    snake := {
      body := [{ x := 15, y := 15 }]
      direction := { x := 1, y := 0 }
      nextDirection := { x := 1, y := 0 }
      wallGraceActive := false, wallGraceTimeout := none
      tailGraceActive := false, tailGraceTimeout := none }
    food := { position := { x := 5, y := 5 }, glowIntensity := 0 }
    inputQueue := []
    timers := []
    nextTimerId := 0
    gameOverCalls := 0
    logicTicks := 0 }

/-- The logic part of `init` (lines 87-208): the first food is placed. -/
def init (draws : List Rand) : Option GameState :=
  match generateFood loadState.snake.body loadState.food draws with
  | none => none
  | some (food, _) => some { loadState with food := food }

/-- The callback of a pending timer: the stale-timer check of lines 287-290 and
307-310; the death-shake callback only touches the DOM. -/
def timerCallback (s : GameState) : TimerKind → GameState
  | .wallGrace =>
    if s.snake.wallGraceActive then
      let s := gameOver s
      { s with snake := { s.snake with wallGraceActive := false } }
    else s
  | .tailGrace =>
    if s.snake.tailGraceActive then
      let s := gameOver s
      { s with snake := { s.snake with tailGraceActive := false } }
    else s
  | .deathShake => s

/-- The host fires the pending timer with handle `id`: it leaves the timer table and
its callback runs.  `none` when no such timer is pending. -/
def fireTimer (s : GameState) (id : Nat) : Option GameState :=
  match s.timers.find? (fun t => t.1 == id) with
  | none => none
  | some t => some (timerCallback { s with timers := s.timers.filter (fun u => u.1 != id) } t.2)

/-- What the host can deliver to the page. -/
inductive Event where
  | frame (timestamp : ℚ) (draws : List Rand)
  | keyDown (key : Key)
  | timer (id : Nat)
  | startGame
  | restartGame (draws : List Rand)
  | returnToStart (draws : List Rand)
  | selectDifficulty (d : Difficulty)

/-- One event delivered to the page; `fuel` bounds the catch-up loop of a frame.
`none`: the event cannot happen (no such timer) or does not return on these inputs. -/
def step (fuel : Nat) (s : GameState) : Event → Option GameState
  | .frame timestamp draws => (render fuel s timestamp draws).map Prod.fst
  | .keyDown key => some (handleKeyPress s key)
  | .timer id => fireTimer s id
  | .startGame => some (startGame s)
  | .restartGame draws => (restartGame s draws).map Prod.fst
  | .returnToStart draws => (returnToStart s draws).map Prod.fst
  | .selectDifficulty d => some { s with config := { s.config with selectedDifficulty := d } }

/-- A sequence of events, delivered in order. -/
def run (fuel : Nat) (s : GameState) : List Event → Option GameState
  | [] => some s
  | e :: es =>
    match step fuel s e with
    | none => none
    | some s1 => run fuel s1 es

/-- The states the page can be in: `init` has run, then any events. -/
inductive Reachable : GameState → Prop where
  | init (draws : List Rand) (s : GameState) (h : init draws = some s) : Reachable s
  | step (fuel : Nat) (s : GameState) (e : Event) (s1 : GameState) (hs : Reachable s)
      (h : step fuel s e = some s1) : Reachable s1

/-- A draw whose `randFloor r n` is `k`, for `k < n`: the fraction `k / n`. -/
def drawFor (k n : Nat) (h : k < n) : Rand :=
  { num := k, den := n, lt := h }

/-- A started game with the snake at its load position `(15, 15)`, heading right, and
the food on the cell in front of it. -/
def eatState : GameState :=
  startGame { loadState with food := { position := { x := 16, y := 15 }, glowIntensity := 0 } }

/-- Two draws that place the next food on `(30, 20)`. -/
def eatDraws : List Rand :=
  [drawFor 30 50 (by decide), drawFor 20 38 (by decide)]

/-- The four unit directions that the keyboard can produce (lines 655-676). -/
def isCardinal (d : Vec) : Bool :=
  d == { x := 0, y := -1 } || d == { x := 0, y := 1 } || d == { x := -1, y := 0 }
    || d == { x := 1, y := 0 }

/-- Two draws that place the first food on `(5, 7)`. -/
def firstDraws : List Rand :=
  [drawFor 5 50 (by decide), drawFor 7 38 (by decide)]

/-- The page once loaded, with the first food placed by `firstDraws`. -/
def loadedState : GameState :=
  { loadState with food := { position := { x := 5, y := 7 }, glowIntensity := 0 } }

/-- The page after loading and a click on the start button. -/
def startedState : GameState :=
  startGame loadedState

/-- Draws for a snake on `(15, 15)` and `(16, 15)`: the first pair hits the body cell
`(16, 15)`, the second pair gives the free cell `(30, 20)`. -/
def retryDraws : List Rand :=
  [drawFor 16 50 (by decide), drawFor 15 38 (by decide),
    drawFor 30 50 (by decide), drawFor 20 38 (by decide)]

/-- Three frames, 50 + 50 + 20 ms after time `t`: with the accumulator at 0 and the
tick interval at 120 ms they run exactly one logic tick, on the third frame. -/
def tickFrames (t : ℚ) : List Event :=
  [.frame (t + 50) [], .frame (t + 100) [], .frame (t + 120) []]

/-- The frames of `n` successive ticks of 120 ms, starting at time `t`. -/
def ticksFrom (t : ℚ) : Nat → List Event
  | 0 => []
  | n + 1 => tickFrames t ++ ticksFrom (t + 120) n

/-- A session on medium difficulty: start, steer up from `(15, 15)` to `(15, 4)`, turn
right to `(16, 4)`, buffer four turns there (near the top wall), then one tick that
turns down to `(16, 5)`, away from every wall, with three inputs still queued. -/
def queueTrace : List Event :=
  [.startGame, .frame 1000 [], .keyDown .up] ++ ticksFrom 1000 11 ++
    [.keyDown .right] ++ ticksFrom 2320 1 ++
    [.keyDown .down, .keyDown .right, .keyDown .down, .keyDown .right] ++ ticksFrom 2440 1

/-- The handle `id` was handed out by an earlier `setTimeout` and no timer is pending
under it any more: it has fired or was cancelled. -/
def Cancelled (id : Nat) (s : GameState) : Prop :=
  id < s.nextTimerId ∧ ∀ kind, (id, kind) ∉ s.timers

/-- The frames of one tick of 120 ms after time `t`, the ticking frame with `draws`. -/
def tickFramesWith (t : ℚ) (draws : List Rand) : List Event :=
  [.frame (t + 50) [], .frame (t + 100) [], .frame (t + 120) draws]

/-- A session that runs into the top wall: start, steer up from `(15, 15)`, 15 ticks
to `(15, 0)`, a 16th tick that steps out of the grid, then the key `right`. -/
def wallTrace : List Event :=
  [.startGame, .frame 1000 [], .keyDown .up] ++ ticksFrom 1000 16 ++ [.keyDown .right]

/-- The state after `wallTrace`: wall grace pending, `right` queued. -/
def wallGraceState : GameState :=
  (run 1 loadedState wallTrace).getD loadState

/-- The page once loaded, with the first food on `(15, 14)`, just above the snake. -/
def grownLoaded : GameState :=
  { loadState with food := { position := { x := 15, y := 14 }, glowIntensity := 0 } }

/-- The opening of a session on medium difficulty: start, steer up and eat three foods
on `(15, 14)`, `(15, 13)`, `(15, 12)`; the snake then has four segments. -/
def growTrace : List Event :=
  [.startGame, .frame 1000 [], .keyDown .up] ++
    tickFramesWith 1000 [drawFor 15 50 (by decide), drawFor 13 38 (by decide)] ++
    tickFramesWith 1120 [drawFor 15 50 (by decide), drawFor 12 38 (by decide)] ++
    tickFramesWith 1240 [drawFor 40 50 (by decide), drawFor 30 38 (by decide)]

/-- After `growTrace`: up to `(15, 5)`, then left, down, left, up around a block of
four cells, so that the body is `(13,5) (13,6) (14,6) (14,5)`; the key `right` and one
tick run the head into the tail, and the key `up` is queued. -/
def tailTrace : List Event :=
  growTrace ++ ticksFrom 1360 7 ++
    [.keyDown .left] ++ ticksFrom 2200 1 ++ [.keyDown .down] ++ ticksFrom 2320 1 ++
    [.keyDown .left] ++ ticksFrom 2440 1 ++ [.keyDown .up] ++ ticksFrom 2560 1 ++
    [.keyDown .right] ++ ticksFrom 2680 1 ++ [.keyDown .up]

/-- The state after `tailTrace`: tail grace pending, `up` queued. -/
def tailGraceState : GameState :=
  (run 1 grownLoaded tailTrace).getD loadState

/-- After `growTrace`: up to `(15, 0)`, then left, down, left, up around a block of
four cells under the top wall, so that the body is `(13,0) (13,1) (14,1) (14,0)`; the
key `right` and one tick run the head into the tail (tail grace, timer 0); the key `up`
and the next tick, 120 ms later, step out of the grid (wall grace, timer 1). -/
def graceClashTrace : List Event :=
  growTrace ++ ticksFrom 1360 12 ++
    [.keyDown .left] ++ ticksFrom 2800 1 ++ [.keyDown .down] ++ ticksFrom 2920 1 ++
    [.keyDown .left] ++ ticksFrom 3040 1 ++ [.keyDown .up] ++ ticksFrom 3160 1 ++
    [.keyDown .right] ++ ticksFrom 3280 1 ++ [.keyDown .up] ++ ticksFrom 3400 1

/-- Draws for a reset: the start cell `(18, 13)`, then the food on `(30, 20)`. -/
def resetDraws : List Rand :=
  [drawFor 10 34 (by decide), drawFor 5 22 (by decide),
    drawFor 30 50 (by decide), drawFor 20 38 (by decide)]

/-- Six frames of 50 ms each after time `t`: 300 ms of play. -/
def idleFrames (t : ℚ) : List Event :=
  [.frame (t + 50) [], .frame (t + 100) [], .frame (t + 150) [], .frame (t + 200) [],
    .frame (t + 250) [], .frame (t + 300) []]

/-- The state after exactly `n` iterations of the catch-up loop of `render` (lines
434-437): each iteration passes the loop test, runs one tick and subtracts the interval.
`none` when the loop exits, or a tick does not return, before `n` iterations are done. -/
def catchUpIter : Nat → GameState → List Rand → Option (GameState × List Rand)
  | 0, s, draws => some (s, draws)
  | n + 1, s, draws =>
    match s.config.render.accumulator with
    | none => none
    | some acc =>
      if acc ≥ (s.config.currentSpeed : ℚ) then
        match gameUpdateLogic s draws with
        | none => none
        | some (s1, rest) =>
          catchUpIter n
            { s1 with
              config := { s1.config with render := { s1.config.render with
                accumulator := some (acc - (s1.config.currentSpeed : ℚ)) } }
              logicTicks := s1.logicTicks + 1 }
            rest
      else none

/-- Lines 425-433 of `render` with the game started and not paused: `lastTime` is
updated and the frame delta is added to the accumulator (0 when `undefined`). -/
def feedAccumulator (s : GameState) (timestamp : ℚ) : GameState :=
  let acc : ℚ := match s.config.render.accumulator with
    | none => 0
    | some a => a
  { s with config := { s.config with render :=
      { lastTime := timestamp, accumulator := some (acc + frameDelta s timestamp) } } }

/-- The tick interval that line 339 gives for the current level and difficulty. -/
def speedFloor (s : GameState) : Int :=
  max 30 (s.config.baseSpeed
    - s.config.level * (DIFFICULTY s.config.selectedDifficulty).speedIncrease)

/-- The difficulty has not changed during the run: the tick interval is not below the
interval that the selected difficulty gives for the current level.  `startGame` and
`restartGame` establish this and every event but a change of difficulty keeps it while
the game is started. -/
def SpeedInv (s : GameState) : Prop :=
  speedFloor s ≤ s.config.currentSpeed

/-- The accumulator is set and not negative. -/
def AccNonneg (s : GameState) : Prop :=
  ∃ a, s.config.render.accumulator = some a ∧ 0 ≤ a

/-- The value of `CONFIG.render.lastTime` that line 426 reads: line 425 has set it to
the timestamp when it was still 0. -/
def lastTimeRead (s : GameState) (timestamp : ℚ) : ℚ :=
  if s.config.render.lastTime = 0 then timestamp else s.config.render.lastTime

/-- The level that line 332 recomputes in a tick that eats: the score has already been
raised by 10. -/
def recomputedLevel (s : GameState) : Int :=
  (s.config.score + 10) / (DIFFICULTY s.config.selectedDifficulty).levelThreshold + 1

/-- The frames of one tick after time `t` for a tick interval between 100 and 150 ms,
the ticking frame with `draws`. -/
def tickFramesAt (t interval : ℚ) (draws : List Rand) : List Event :=
  [.frame (t + 50) [], .frame (t + 100) [], .frame (t + interval) draws]

/-- A session on medium difficulty that eats three foods in a row, on `(15, 14)`,
`(15, 13)` and `(15, 12)`, and finds the fourth on `(15, 11)` in front of the head:
score 30, level 1, interval 120. -/
def levelTrace : List Event :=
  [.startGame, .frame 1000 [], .keyDown .up] ++
    tickFramesWith 1000 [drawFor 15 50 (by decide), drawFor 13 38 (by decide)] ++
    tickFramesWith 1120 [drawFor 15 50 (by decide), drawFor 12 38 (by decide)] ++
    tickFramesWith 1240 [drawFor 15 50 (by decide), drawFor 11 38 (by decide)]

/-- The state after `levelTrace`. -/
def levelOneState : GameState :=
  (run 1 grownLoaded levelTrace).getD loadState

/-- The session `levelTrace` followed by two frames of 50 ms: the accumulator holds
100 of the 120 ms of the interval and the fourth food is in front of the head. -/
def levelUpFrameState : GameState :=
  (run 1 grownLoaded (levelTrace ++ [.frame 1410 [], .frame 1460 []])).getD loadState

/-- The session `levelTrace` continued: the fourth food brings the score to 40 (level
2, interval 110, 10 ms left in the accumulator), three more foods bring it to 70, and
the eighth food lies on `(15, 7)` in front of the head. -/
def levelTwoTrace : List Event :=
  levelTrace ++
    tickFramesWith 1360 [drawFor 15 50 (by decide), drawFor 10 38 (by decide)] ++
    [.frame 1530 [], .frame 1580 [drawFor 15 50 (by decide), drawFor 9 38 (by decide)]] ++
    tickFramesAt 1580 110 [drawFor 15 50 (by decide), drawFor 8 38 (by decide)] ++
    tickFramesAt 1690 110 [drawFor 15 50 (by decide), drawFor 7 38 (by decide)]

/-- The state after `levelTwoTrace`: score 70, level 2, interval 110. -/
def levelTwoState : GameState :=
  (run 1 grownLoaded levelTwoTrace).getD loadState

/-- A session that reaches the top-left corner: start, steer up from `(15, 15)` to
`(15, 0)`, then left along the top row to `(0, 0)`, still heading left. -/
def cornerTrace : List Event :=
  [.startGame, .frame 1000 [], .keyDown .up] ++ ticksFrom 1000 15 ++
    [.keyDown .left] ++ ticksFrom 2800 15

/-- The state after `cornerTrace`: head on `(0, 0)`, direction `(-1, 0)`. -/
def cornerState : GameState :=
  (run 1 loadedState cornerTrace).getD loadState

/-- The cell lies inside the grid: `0 <= x < tileCountX` and `0 <= y < tileCountY`. -/
def inGrid (c : Vec) : Prop :=
  (0 ≤ c.x ∧ c.x < tileCountX) ∧ (0 ≤ c.y ∧ c.y < tileCountY)

/-! ## Frame lemmas: what each block of a tick leaves alone -/

@[simp] theorem clearTimeout_snake (s : GameState) (h : Option Nat) :
    (clearTimeout s h).snake = s.snake := by
  cases h <;> rfl

@[simp] theorem clearTimeout_config (s : GameState) (h : Option Nat) :
    (clearTimeout s h).config = s.config := by
  cases h <;> rfl

@[simp] theorem clearTimeout_food (s : GameState) (h : Option Nat) :
    (clearTimeout s h).food = s.food := by
  cases h <;> rfl

@[simp] theorem clearTimeout_inputQueue (s : GameState) (h : Option Nat) :
    (clearTimeout s h).inputQueue = s.inputQueue := by
  cases h <;> rfl

@[simp] theorem endWallGrace_body (s : GameState) :
    (endWallGrace s).snake.body = s.snake.body := by
  unfold endWallGrace; split <;> simp

@[simp] theorem endWallGrace_food (s : GameState) :
    (endWallGrace s).food = s.food := by
  unfold endWallGrace; split <;> simp

@[simp] theorem endTailGrace_body (s : GameState) :
    (endTailGrace s).snake.body = s.snake.body := by
  unfold endTailGrace; split <;> simp

@[simp] theorem endTailGrace_food (s : GameState) :
    (endTailGrace s).food = s.food := by
  unfold endTailGrace; split <;> simp

@[simp] theorem applyQueuedInput_body (s : GameState) :
    (applyQueuedInput s).snake.body = s.snake.body := by
  unfold applyQueuedInput; split <;> [rfl; (split <;> rfl)]

@[simp] theorem applyQueuedInput_food (s : GameState) :
    (applyQueuedInput s).food = s.food := by
  unfold applyQueuedInput; split <;> [rfl; (split <;> rfl)]

@[simp] theorem levelProgression_body (s : GameState) :
    (levelProgression s).snake.body = s.snake.body := by
  unfold levelProgression; simp only []; split <;> rfl

/-- A tick has a candidate head exactly when the body is not empty. -/
theorem nextHead_isSome_iff (s : GameState) :
    (nextHead s).isSome = true ↔ s.snake.body ≠ [] := by
  unfold nextHead
  cases s.snake.body <;> simp

/-- The branches of one tick, read off an outcome. -/
theorem gameUpdateLogic_elim {s s1 : GameState} {draws rest : List Rand}
    (h : gameUpdateLogic s draws = some (s1, rest)) :
    ∃ head, nextHead (applyQueuedInput s) = some head ∧
      ((outOfBounds head = true ∧ rest = draws ∧
          ((applyQueuedInput s).snake.wallGraceActive = false ∧
              s1 = startWallGrace (applyQueuedInput s) ∨
            (applyQueuedInput s).snake.wallGraceActive = true ∧ s1 = applyQueuedInput s)) ∨
        (outOfBounds head = false ∧ checkSelfCollision s.snake.body head = true ∧ rest = draws ∧
          ((endWallGrace (applyQueuedInput s)).snake.tailGraceActive = false ∧
              s1 = startTailGrace (endWallGrace (applyQueuedInput s)) ∨
            (endWallGrace (applyQueuedInput s)).snake.tailGraceActive = true ∧
              s1 = endWallGrace (applyQueuedInput s))) ∨
        (outOfBounds head = false ∧ checkSelfCollision s.snake.body head = false ∧
          sameCell head s.food.position = false ∧ rest = draws ∧
          s1 = dropTail (growHead (endTailGrace (endWallGrace (applyQueuedInput s))) head)) ∨
        (outOfBounds head = false ∧ checkSelfCollision s.snake.body head = false ∧
          sameCell head s.food.position = true ∧
          ∃ food, generateFood (head :: s.snake.body) s.food draws = some (food, rest) ∧
            s1 = levelProgression
              { addScore (growHead (endTailGrace (endWallGrace (applyQueuedInput s))) head) with
                food := food })) := by
  unfold gameUpdateLogic at h
  simp only [] at h
  cases hh : nextHead (applyQueuedInput s) with
  | none => simp [hh] at h
  | some head =>
    refine ⟨head, rfl, ?_⟩
    simp only [hh] at h
    cases ho : outOfBounds head with
    | true =>
      simp only [ho, if_true] at h
      left
      refine ⟨rfl, ?_⟩
      cases hw : (applyQueuedInput s).snake.wallGraceActive <;> simp [hw] at h <;>
        obtain ⟨h1, h2⟩ := h <;> simp [h1, h2]
    | false =>
      simp only [ho] at h
      right
      cases hc : checkSelfCollision s.snake.body head with
      | true =>
        left
        simp [hc] at h
        refine ⟨rfl, rfl, ?_⟩
        cases hw : (endWallGrace (applyQueuedInput s)).snake.tailGraceActive <;>
          simp [hw] at h <;> obtain ⟨h1, h2⟩ := h <;> simp [h1, h2]
      | false =>
        right
        simp [hc, growHead, addScore] at h
        cases hf : sameCell head s.food.position with
        | false =>
          left
          simp [hf] at h
          obtain ⟨h1, h2⟩ := h
          simp [h1, h2, growHead]
        | true =>
          right
          simp [hf] at h
          refine ⟨rfl, rfl, rfl, ?_⟩
          cases hg : generateFood (head :: s.snake.body) s.food draws with
          | none => simp [hg] at h
          | some r =>
            obtain ⟨food, rest1⟩ := r
            simp [hg] at h
            obtain ⟨h1, h2⟩ := h
            exact ⟨food, by rw [h2], by rw [← h1]; simp [growHead, addScore]⟩

/-! ## Reachable states: a proof principle -/

/-- The catch-up loop keeps every property that a tick keeps and that does not read
the render bookkeeping. -/
theorem catchUp_invariant (P : GameState → Prop)
    (htick : ∀ s draws s1 rest, P s → gameUpdateLogic s draws = some (s1, rest) → P s1)
    (hrender : ∀ s r n, P s →
      P { s with config := { s.config with render := r }, logicTicks := n }) :
    ∀ fuel s draws s1 rest, P s → catchUp fuel s draws = some (s1, rest) → P s1 := by
  intro fuel
  induction fuel with
  | zero =>
    intro s draws s1 rest hP h
    unfold catchUp at h
    split at h
    · simp at h; rw [← h.1]; exact hP
    · split at h
      · simp at h
      · simp at h; rw [← h.1]; exact hP
  | succ n ih =>
    intro s draws s1 rest hP h
    unfold catchUp at h
    split at h
    · simp at h; rw [← h.1]; exact hP
    · split at h
      · simp only [] at h
        split at h
        · simp at h
        · rename_i s2 rest2 heq
          exact ih _ _ _ _ (hrender _ _ _ (htick _ _ _ _ hP heq)) h
      · simp at h; rw [← h.1]; exact hP

/-- Induction over the reachable states, one obligation per function of the page. -/
theorem reachable_invariant (P : GameState → Prop)
    (hinit : ∀ draws s, init draws = some s → P s)
    (htick : ∀ s draws s1 rest, P s → gameUpdateLogic s draws = some (s1, rest) → P s1)
    (hrender : ∀ s r n, P s →
      P { s with config := { s.config with render := r }, logicTicks := n })
    (hkey : ∀ s key, P s → P (handleKeyPress s key))
    (htimer : ∀ s id s1, P s → fireTimer s id = some s1 → P s1)
    (hstart : ∀ s, P s → P (startGame s))
    (hrestart : ∀ s draws s1 rest, P s → restartGame s draws = some (s1, rest) → P s1)
    (hreturn : ∀ s draws s1 rest, P s → returnToStart s draws = some (s1, rest) → P s1)
    (hdiff : ∀ s d, P s → P { s with config := { s.config with selectedDifficulty := d } }) :
    ∀ s, Reachable s → P s := by
  intro s hs
  induction hs with
  | init draws s h => exact hinit draws s h
  | step fuel s e s1 _ h ih =>
    cases e with
    | frame timestamp draws =>
      simp only [step, Option.map_eq_some'] at h
      obtain ⟨⟨s2, rest⟩, h, rfl⟩ := h
      unfold render at h
      simp only [] at h
      split at h
      · exact catchUp_invariant P htick hrender _ _ _ _ _ (hrender _ _ _ (hrender s _ s.logicTicks ih)) h
      · simp at h
        rw [← h.1]
        exact hrender s _ s.logicTicks ih
    | keyDown key =>
      simp only [step, Option.some.injEq] at h
      exact h ▸ hkey s key ih
    | timer id => exact htimer s id s1 ih h
    | startGame =>
      simp only [step, Option.some.injEq] at h
      exact h ▸ hstart s ih
    | restartGame draws =>
      simp only [step, Option.map_eq_some'] at h
      obtain ⟨⟨s2, rest⟩, h, rfl⟩ := h
      exact hrestart s draws s2 rest ih h
    | returnToStart draws =>
      simp only [step, Option.map_eq_some'] at h
      obtain ⟨⟨s2, rest⟩, h, rfl⟩ := h
      exact hreturn s draws s2 rest ih h
    | selectDifficulty d =>
      simp only [step, Option.some.injEq] at h
      exact h ▸ hdiff s d ih

@[simp] theorem applyQueuedInput_config (s : GameState) :
    (applyQueuedInput s).config = s.config := by
  unfold applyQueuedInput; split <;> [rfl; (split <;> rfl)]

@[simp] theorem endWallGrace_config (s : GameState) :
    (endWallGrace s).config = s.config := by
  unfold endWallGrace; split <;> simp

@[simp] theorem endTailGrace_config (s : GameState) :
    (endTailGrace s).config = s.config := by
  unfold endTailGrace; split <;> simp

@[simp] theorem startWallGrace_config (s : GameState) :
    (startWallGrace s).config = s.config := rfl

@[simp] theorem startTailGrace_config (s : GameState) :
    (startTailGrace s).config = s.config := rfl

@[simp] theorem startWallGrace_body (s : GameState) :
    (startWallGrace s).snake.body = s.snake.body := rfl

@[simp] theorem startTailGrace_body (s : GameState) :
    (startTailGrace s).snake.body = s.snake.body := rfl

/-! ## C1: body length -/

/-- Every segment-count fact of a tick: a tick that does not eat keeps the length. -/
theorem tick_length {s s1 : GameState} {draws rest : List Rand}
    (h : gameUpdateLogic s draws = some (s1, rest)) :
    s1.snake.body.length = s.snake.body.length + (if tickEats s = true then 1 else 0) := by
  obtain ⟨head, hh, hcase⟩ := gameUpdateLogic_elim h
  have hne : s.snake.body ≠ [] := by
    intro hb
    simp [nextHead, hb] at hh
  unfold tickEats
  simp only [hh, applyQueuedInput_body, applyQueuedInput_food]
  rcases hcase with ⟨ho, -, hs⟩ | ⟨ho, hc, -, hs⟩ | ⟨ho, hc, hf, -, hs⟩ | ⟨ho, hc, hf, food, -, hs⟩
  · rcases hs with ⟨-, rfl⟩ | ⟨-, rfl⟩ <;> simp [ho, startWallGrace, setTimeout]
  · rcases hs with ⟨-, rfl⟩ | ⟨-, rfl⟩ <;> simp [ho, hc, startTailGrace, setTimeout]
  · subst hs
    simp [ho, hc, hf, dropTail, growHead]
  · subst hs
    simp [ho, hc, hf, addScore, growHead]

/-- A tick that does not eat returns, whatever the draws. -/
theorem tick_returns_of_not_eats (s : GameState) (draws : List Rand)
    (hne : s.snake.body ≠ []) (he : tickEats s = false) :
    ∃ s1, gameUpdateLogic s draws = some (s1, draws) := by
  obtain ⟨head, hh⟩ := Option.isSome_iff_exists.mp
    ((nextHead_isSome_iff (applyQueuedInput s)).mpr (by simpa using hne))
  unfold tickEats at he
  simp only [hh, applyQueuedInput_body, applyQueuedInput_food] at he
  unfold gameUpdateLogic
  simp only [hh]
  cases ho : outOfBounds head with
  | true => cases hw : (applyQueuedInput s).snake.wallGraceActive <;> simp [hw]
  | false =>
    cases hc : checkSelfCollision s.snake.body head with
    | true =>
      cases hw : (endWallGrace (applyQueuedInput s)).snake.tailGraceActive <;> simp [hc, hw]
    | false =>
      have hf : sameCell head s.food.position = false := by simpa [ho, hc] using he
      simp [hc, hf, growHead]

/-- A tick that eats returns exactly when its food placement does. -/
theorem tick_returns_of_eats (s : GameState) (draws : List Rand) (he : tickEats s = true) :
    ∃ head, nextHead (applyQueuedInput s) = some head ∧
      (gameUpdateLogic s draws).isSome
        = (generateFood (head :: s.snake.body) s.food draws).isSome := by
  unfold tickEats at he
  cases hh : nextHead (applyQueuedInput s) with
  | none => simp [hh] at he
  | some head =>
    refine ⟨head, rfl, ?_⟩
    simp only [hh, applyQueuedInput_body, applyQueuedInput_food, Bool.and_eq_true,
      Bool.not_eq_true'] at he
    obtain ⟨⟨ho, hc⟩, hf⟩ := he
    unfold gameUpdateLogic
    simp only [hh]
    simp [ho, hc, hf, growHead, addScore]
    cases generateFood (head :: s.snake.body) s.food draws <;> simp

@[simp] theorem levelProgression_score (s : GameState) :
    (levelProgression s).config.score = s.config.score := by
  unfold levelProgression; simp only []; split <;> rfl

@[simp] theorem handleKeyPress_snake (s : GameState) (key : Key) :
    (handleKeyPress s key).snake = s.snake := by
  unfold handleKeyPress
  simp only []
  repeat' split
  all_goals rfl

@[simp] theorem handleKeyPress_score (s : GameState) (key : Key) :
    (handleKeyPress s key).config.score = s.config.score := by
  unfold handleKeyPress
  simp only []
  repeat' split
  all_goals rfl

theorem timerCallback_body (s : GameState) (kind : TimerKind) :
    (timerCallback s kind).snake.body = s.snake.body := by
  cases kind <;> simp only [timerCallback] <;> (try split) <;> rfl

theorem timerCallback_score (s : GameState) (kind : TimerKind) :
    (timerCallback s kind).config.score = s.config.score := by
  cases kind <;> simp only [timerCallback] <;> (try split) <;> rfl

/-- The length invariant: the body is not empty and the score is ten times the number
of segments after the first. -/
theorem lengthInv_reachable (s : GameState) (hs : Reachable s) :
    s.snake.body ≠ [] ∧ s.config.score = 10 * ((s.snake.body.length : Int) - 1) := by
  refine reachable_invariant
    (fun s => s.snake.body ≠ [] ∧ s.config.score = 10 * ((s.snake.body.length : Int) - 1))
    ?_ ?_ ?_ ?_ ?_ ?_ ?_ ?_ ?_ s hs
  · intro draws s h
    unfold init at h
    split at h
    · simp at h
    · simp at h; subst h; simp [loadState]
  · intro s draws s1 rest ⟨hne, hsc⟩ h
    have hlen := tick_length h
    obtain ⟨head, hh, hcase⟩ := gameUpdateLogic_elim h
    have hpos : 0 < s.snake.body.length := List.length_pos.mpr hne
    refine ⟨?_, ?_⟩
    · intro hb
      rw [hb] at hlen
      simp at hlen
      omega
    · unfold tickEats at hlen
      simp only [hh, applyQueuedInput_body, applyQueuedInput_food] at hlen
      rcases hcase with ⟨ho, -, hs⟩ | ⟨ho, hc, -, hs⟩ | ⟨ho, hc, hf, -, hs⟩ |
        ⟨ho, hc, hf, food, -, hs⟩
      · simp [ho] at hlen
        rcases hs with ⟨-, rfl⟩ | ⟨-, rfl⟩ <;> simp [hsc]
      · simp [ho, hc] at hlen
        rcases hs with ⟨-, rfl⟩ | ⟨-, rfl⟩ <;> simp [hsc]
      · simp [ho, hc, hf] at hlen
        rw [hlen]
        subst hs
        simp [dropTail, growHead, hsc]
      · simp [ho, hc, hf] at hlen
        rw [hlen]
        subst hs
        simp [addScore, growHead, hsc]
        ring
  · intro s r n h
    exact h
  · intro s key h
    simpa using h
  · intro s id s1 h hf
    unfold fireTimer at hf
    split at hf
    · simp at hf
    · simp only [Option.some.injEq] at hf
      subst hf
      rw [timerCallback_body, timerCallback_score]
      exact h
  · intro s h
    exact h
  · intro s draws s1 rest _ h
    unfold restartGame at h
    split at h
    · simp only [] at h
      split at h
      · simp at h
      · simp at h
        rw [← h.1]
        simp
    · simp at h
  · intro s draws s1 rest _ h
    unfold returnToStart at h
    split at h
    · simp only [] at h
      split at h
      · simp at h
      · simp at h
        rw [← h.1]
        simp
    · simp at h
  · intro s d h
    exact h

/-- C1: a tick from a state with a non-empty body leaves a body that is one segment
longer when the tick is a valid move onto the food cell (`tickEats`) and of the same
length in every other case (plain move, wall or tail grace); such a tick returns for
all draws when it does not eat, and exactly when `generateFood` returns when it eats;
and every reachable state has `body.length = 1 + score / 10`. -/
theorem body_length_tick_and_reachable :
    (∀ (s s1 : GameState) (draws rest : List Rand), s.snake.body ≠ [] →
      gameUpdateLogic s draws = some (s1, rest) →
      s1.snake.body.length = s.snake.body.length + (if tickEats s = true then 1 else 0)) ∧
    (∀ (s : GameState) (draws : List Rand), s.snake.body ≠ [] → tickEats s = false →
      ∃ s1, gameUpdateLogic s draws = some (s1, draws)) ∧
    (∀ (s : GameState) (draws : List Rand), tickEats s = true →
      ∃ head, nextHead (applyQueuedInput s) = some head ∧
        (gameUpdateLogic s draws).isSome
          = (generateFood (head :: s.snake.body) s.food draws).isSome) ∧
    (∀ s : GameState, Reachable s →
      (s.snake.body.length : Int) = 1 + s.config.score / 10) := by
  refine ⟨fun s s1 draws rest _ h => tick_length h, tick_returns_of_not_eats,
    tick_returns_of_eats, ?_⟩
  intro s hs
  obtain ⟨-, hsc⟩ := lengthInv_reachable s hs
  rw [hsc]
  omega

/-- C1 at a concrete tick: the snake of length 1 eats the food in front of it and has
length 2 afterwards. -/
theorem body_length_tick_and_reachable_witness :
    tickEats eatState = true ∧
      ∃ s1 rest, gameUpdateLogic eatState eatDraws = some (s1, rest) ∧
        s1.snake.body.length = 2 := by
  have he : tickEats eatState = true := by decide
  refine ⟨he, ?_⟩
  obtain ⟨⟨s1, rest⟩, h⟩ := Option.isSome_iff_exists.mp
    (show (gameUpdateLogic eatState eatDraws).isSome = true by decide)
  refine ⟨s1, rest, h, ?_⟩
  have hl := body_length_tick_and_reachable.1 eatState s1 eatDraws rest (by decide) h
  rw [hl, if_pos he]
  decide

/-! ## C2: no reversal in one tick -/

@[simp] theorem endWallGrace_direction (s : GameState) :
    (endWallGrace s).snake.direction = s.snake.direction := by
  unfold endWallGrace; split <;> simp

@[simp] theorem endWallGrace_nextDirection (s : GameState) :
    (endWallGrace s).snake.nextDirection = s.snake.nextDirection := by
  unfold endWallGrace; split <;> simp

@[simp] theorem endWallGrace_inputQueue (s : GameState) :
    (endWallGrace s).inputQueue = s.inputQueue := by
  unfold endWallGrace; split <;> simp

@[simp] theorem endTailGrace_direction (s : GameState) :
    (endTailGrace s).snake.direction = s.snake.direction := by
  unfold endTailGrace; split <;> simp

@[simp] theorem endTailGrace_nextDirection (s : GameState) :
    (endTailGrace s).snake.nextDirection = s.snake.nextDirection := by
  unfold endTailGrace; split <;> simp

@[simp] theorem endTailGrace_inputQueue (s : GameState) :
    (endTailGrace s).inputQueue = s.inputQueue := by
  unfold endTailGrace; split <;> simp

@[simp] theorem levelProgression_snake (s : GameState) :
    (levelProgression s).snake = s.snake := by
  unfold levelProgression; simp only []; split <;> rfl

@[simp] theorem levelProgression_inputQueue (s : GameState) :
    (levelProgression s).inputQueue = s.inputQueue := by
  unfold levelProgression; simp only []; split <;> rfl

/-- After line 271 a tick no longer touches the directions or the input queue. -/
theorem tick_directions {s s1 : GameState} {draws rest : List Rand}
    (h : gameUpdateLogic s draws = some (s1, rest)) :
    s1.snake.direction = (applyQueuedInput s).snake.direction ∧
      s1.snake.nextDirection = (applyQueuedInput s).snake.nextDirection ∧
      s1.inputQueue = (applyQueuedInput s).inputQueue := by
  obtain ⟨head, -, hcase⟩ := gameUpdateLogic_elim h
  rcases hcase with ⟨-, -, hs⟩ | ⟨-, -, -, hs⟩ | ⟨-, -, -, -, hs⟩ | ⟨-, -, -, food, -, hs⟩
  · rcases hs with ⟨-, rfl⟩ | ⟨-, rfl⟩ <;> simp [startWallGrace, setTimeout]
  · rcases hs with ⟨-, rfl⟩ | ⟨-, rfl⟩ <;> simp [startTailGrace, setTimeout]
  · subst hs
    simp [dropTail, growHead]
  · subst hs
    simp [addScore, growHead]

theorem isOpposite_self_of_cardinal (d : Vec) (h : isCardinal d = true) :
    isOpposite d d = false := by
  simp only [isCardinal, Bool.or_eq_true, beq_iff_eq] at h
  rcases h with ((rfl | rfl) | rfl) | rfl <;> decide

/-- Line 271 commits `nextDirection`: after it the two directions agree. -/
theorem applyQueuedInput_direction (s : GameState) :
    (applyQueuedInput s).snake.direction = (applyQueuedInput s).snake.nextDirection := by
  unfold applyQueuedInput; split <;> [rfl; (split <;> rfl)]

/-- What lines 260-269 do to `nextDirection` and to the queue. -/
theorem applyQueuedInput_cases (s : GameState) :
    (s.inputQueue = [] ∧ (applyQueuedInput s).snake.nextDirection = s.snake.nextDirection ∧
        (applyQueuedInput s).inputQueue = []) ∨
      (∃ q rest, s.inputQueue = q :: rest ∧ isOpposite q s.snake.direction = false ∧
        (applyQueuedInput s).snake.nextDirection = q ∧ (applyQueuedInput s).inputQueue = rest) ∨
      (∃ q rest, s.inputQueue = q :: rest ∧ isOpposite q s.snake.direction = true ∧
        (applyQueuedInput s).snake.nextDirection = s.snake.nextDirection ∧
        (applyQueuedInput s).inputQueue = rest) := by
  unfold applyQueuedInput
  cases hq : s.inputQueue with
  | nil => left; simp [hq]
  | cons q rest =>
    right
    cases ho : isOpposite q s.snake.direction with
    | false => left; exact ⟨q, rest, rfl, ho, by simp [hq, ho], by simp [hq, ho]⟩
    | true => right; exact ⟨q, rest, rfl, ho, by simp [hq, ho], by simp [hq, ho]⟩

theorem desiredDirection_cardinal {key : Key} {d : Vec} (h : desiredDirection key = some d) :
    isCardinal d = true := by
  cases key <;> simp [desiredDirection] at h <;> subst h <;> decide

/-- The queue after a key press: old entries, possibly followed by the new direction. -/
theorem handleKeyPress_inputQueue_mem (s : GameState) (key : Key) (q : Vec)
    (h : q ∈ (handleKeyPress s key).inputQueue) :
    q ∈ s.inputQueue ∨ desiredDirection key = some q := by
  unfold handleKeyPress at h
  simp only [] at h
  split at h
  · exact Or.inl h
  · split at h
    · exact Or.inl h
    · split at h
      · exact Or.inl h
      · rename_i desired hd
        split at h
        · exact Or.inl h
        · split at h
          · split at h
            · simp only [List.mem_append, List.mem_singleton] at h
              rcases h with h | h
              · exact Or.inl h
              · exact Or.inr (h ▸ hd)
            · simp only [List.mem_append, List.mem_singleton] at h
              rcases h with h | h
              · exact Or.inl (List.mem_of_mem_tail h)
              · exact Or.inr (h ▸ hd)
          · exact Or.inl h

/-- A timer callback leaves the snake's cells and directions, the queue, the food, the
score and the level alone. -/
theorem fireTimer_frame {s s1 : GameState} {id : Nat} (h : fireTimer s id = some s1) :
    s1.snake.body = s.snake.body ∧ s1.snake.direction = s.snake.direction ∧
      s1.snake.nextDirection = s.snake.nextDirection ∧ s1.inputQueue = s.inputQueue ∧
      s1.food = s.food ∧ s1.config.score = s.config.score ∧
      s1.config.level = s.config.level := by
  unfold fireTimer at h
  split at h
  · simp at h
  · rename_i t _
    simp only [Option.some.injEq] at h
    subst h
    cases t.2 <;> simp only [timerCallback] <;> (try split) <;> simp [gameOver, setTimeout]

/-- The direction invariant: in a reachable state `nextDirection` equals `direction`,
which is one of the four unit directions, as is every queued input. -/
theorem dirInv_reachable (s : GameState) (hs : Reachable s) :
    isCardinal s.snake.direction = true ∧ s.snake.nextDirection = s.snake.direction ∧
      ∀ q ∈ s.inputQueue, isCardinal q = true := by
  refine reachable_invariant
    (fun s => isCardinal s.snake.direction = true ∧ s.snake.nextDirection = s.snake.direction ∧
      ∀ q ∈ s.inputQueue, isCardinal q = true)
    ?_ ?_ ?_ ?_ ?_ ?_ ?_ ?_ ?_ s hs
  · intro draws s h
    unfold init at h
    split at h
    · simp at h
    · simp at h; subst h; simp [loadState]; decide
  · intro s draws s1 rest ⟨hc, hn, hq⟩ h
    obtain ⟨hd1, hn1, hq1⟩ := tick_directions h
    have hdd := applyQueuedInput_direction s
    rw [hd1, hn1, hq1, hdd]
    refine ⟨?_, rfl, ?_⟩
    · rcases applyQueuedInput_cases s with ⟨-, h1, -⟩ | ⟨q, r, hqr, -, h1, -⟩ | ⟨q, r, -, -, h1, -⟩
      · rw [h1, hn]; exact hc
      · rw [h1]; exact hq q (by rw [hqr]; exact List.mem_cons_self q r)
      · rw [h1, hn]; exact hc
    · intro q hmem
      rcases applyQueuedInput_cases s with ⟨-, -, h2⟩ | ⟨q0, r, hqr, -, -, h2⟩ |
        ⟨q0, r, hqr, -, -, h2⟩
      · rw [h2] at hmem; simp at hmem
      · rw [h2] at hmem; exact hq q (by rw [hqr]; exact List.mem_cons_of_mem q0 hmem)
      · rw [h2] at hmem; exact hq q (by rw [hqr]; exact List.mem_cons_of_mem q0 hmem)
  · intro s r n h
    exact h
  · intro s key ⟨hc, hn, hq⟩
    refine ⟨by simpa using hc, by simpa using hn, ?_⟩
    intro q hmem
    rcases handleKeyPress_inputQueue_mem s key q hmem with h | h
    · exact hq q h
    · exact desiredDirection_cardinal h
  · intro s id s1 h hf
    obtain ⟨-, h1, h2, h3, -⟩ := fireTimer_frame hf
    rw [h1, h2, h3]
    exact h
  · intro s h
    exact h
  · intro s draws s1 rest _ h
    unfold restartGame at h
    split at h
    · simp only [] at h
      split at h
      · simp at h
      · simp at h
        rw [← h.1]
        simp; decide
    · simp at h
  · intro s draws s1 rest _ h
    unfold returnToStart at h
    split at h
    · simp only [] at h
      split at h
      · simp at h
      · simp at h
        rw [← h.1]
        simp; decide
    · simp at h
  · intro s d h
    exact h

theorem loadedState_reachable : Reachable loadedState :=
  Reachable.init firstDraws loadedState (by decide)

theorem startedState_reachable : Reachable startedState :=
  Reachable.step 0 loadedState .startGame startedState loadedState_reachable rfl

/-- C2: from a reachable state and for every content of the input queue, the direction
that a tick commits (line 271) is never the opposite of the direction before the tick,
and it is the direction of the state the tick returns; a queued input that is the
opposite of the current direction is popped without changing `nextDirection`. -/
theorem no_reversal_in_one_tick (s : GameState) (hs : Reachable s) (queue : List Vec) :
    isOpposite (applyQueuedInput { s with inputQueue := queue }).snake.direction
        s.snake.direction = false ∧
      (∀ draws s1 rest, gameUpdateLogic { s with inputQueue := queue } draws = some (s1, rest) →
        s1.snake.direction = (applyQueuedInput { s with inputQueue := queue }).snake.direction ∧
          isOpposite s1.snake.direction s.snake.direction = false) ∧
      (∀ q rest1, queue = q :: rest1 → isOpposite q s.snake.direction = true →
        (applyQueuedInput { s with inputQueue := queue }).snake.nextDirection
            = s.snake.nextDirection ∧
          (applyQueuedInput { s with inputQueue := queue }).inputQueue = rest1 ∧
          ∀ draws s1 rest,
            gameUpdateLogic { s with inputQueue := queue } draws = some (s1, rest) →
            s1.snake.nextDirection = s.snake.nextDirection ∧ s1.inputQueue = rest1) := by
  obtain ⟨hc, hn, -⟩ := dirInv_reachable s hs
  have hcases := applyQueuedInput_cases { s with inputQueue := queue }
  have hdd := applyQueuedInput_direction { s with inputQueue := queue }
  have key : isOpposite (applyQueuedInput { s with inputQueue := queue }).snake.direction
      s.snake.direction = false := by
    rw [hdd]
    rcases hcases with ⟨-, h1, -⟩ | ⟨q, r, -, ho, h1, -⟩ | ⟨q, r, -, -, h1, -⟩
    · rw [h1]
      show isOpposite s.snake.nextDirection s.snake.direction = false
      rw [hn]
      exact isOpposite_self_of_cardinal _ hc
    · rw [h1]
      exact ho
    · rw [h1]
      show isOpposite s.snake.nextDirection s.snake.direction = false
      rw [hn]
      exact isOpposite_self_of_cardinal _ hc
  refine ⟨key, ?_, ?_⟩
  · intro draws s1 rest h
    obtain ⟨hd1, -, -⟩ := tick_directions h
    exact ⟨hd1, by rw [hd1]; exact key⟩
  · intro q rest1 hq ho
    have hn2 : (applyQueuedInput { s with inputQueue := queue }).snake.nextDirection
          = s.snake.nextDirection ∧
        (applyQueuedInput { s with inputQueue := queue }).inputQueue = rest1 := by
      rcases hcases with ⟨h0, -, -⟩ | ⟨q2, r, hqr, ho2, -, -⟩ | ⟨q2, r, hqr, -, h1, h2⟩
      · simp [hq] at h0
      · simp only [hq, List.cons.injEq] at hqr
        obtain ⟨rfl, rfl⟩ := hqr
        rw [show ({ s with inputQueue := queue } : GameState).snake.direction
          = s.snake.direction from rfl, ho] at ho2
        exact absurd ho2 (by decide)
      · simp only [hq, List.cons.injEq] at hqr
        obtain ⟨rfl, rfl⟩ := hqr
        exact ⟨h1, h2⟩
    refine ⟨hn2.1, hn2.2, ?_⟩
    intro draws s1 rest h
    obtain ⟨-, hn1, hq1⟩ := tick_directions h
    exact ⟨hn1.trans hn2.1, hq1.trans hn2.2⟩

/-- C2 at a concrete state: the started snake heads right; a queued left is dropped and
the tick keeps heading right. -/
theorem no_reversal_in_one_tick_witness :
    isOpposite (applyQueuedInput { startedState with inputQueue := [{ x := -1, y := 0 }] }
        ).snake.direction startedState.snake.direction = false ∧
      (applyQueuedInput { startedState with inputQueue := [{ x := -1, y := 0 }] }
        ).snake.direction = { x := 1, y := 0 } ∧
      (applyQueuedInput { startedState with inputQueue := [{ x := -1, y := 0 }] }
        ).inputQueue = [] :=
  ⟨(no_reversal_in_one_tick startedState startedState_reachable [{ x := -1, y := 0 }]).1,
    by decide, by decide⟩

/-! ## C3: food placement -/

theorem randFloor_bounds (r : Rand) (n : Int) (hn : 0 < n) :
    0 ≤ randFloor r n ∧ randFloor r n < n := by
  unfold randFloor
  have hlt := r.lt
  have hden : (0 : Int) < (r.den : Int) := by omega
  have hnum : (0 : Int) ≤ (r.num : Int) := Int.ofNat_nonneg _
  constructor
  · exact Int.ediv_nonneg (Int.mul_nonneg hnum (le_of_lt hn)) (le_of_lt hden)
  · apply Int.ediv_lt_of_lt_mul hden
    have : (r.num : Int) < (r.den : Int) := by exact_mod_cast hlt
    exact Int.mul_lt_mul_of_pos_right this hn |>.trans_eq (Int.mul_comm _ _)

theorem sameCell_iff (a b : Vec) : sameCell a b = true ↔ a = b := by
  cases a; cases b
  simp [sameCell]

/-- Whatever `generateFood` returns is a free cell of the grid with the glow reset. -/
theorem generateFood_sound (body : List Vec) :
    ∀ (draws : List Rand) (food food1 : Food) (rest : List Rand),
      generateFood body food draws = some (food1, rest) →
      (0 ≤ food1.position.x ∧ food1.position.x < tileCountX) ∧
        (0 ≤ food1.position.y ∧ food1.position.y < tileCountY) ∧
        (∀ seg ∈ body, seg ≠ food1.position) ∧ food1.glowIntensity = 0
  | [], food, food1, rest, h => by simp [generateFood] at h
  | [_], food, food1, rest, h => by simp [generateFood] at h
  | rx :: ry :: tl, food, food1, rest, h => by
    rw [generateFood] at h
    split at h
    · exact generateFood_sound body tl _ food1 rest h
    · rename_i hfree
      simp only [Option.some.injEq, Prod.mk.injEq] at h
      obtain ⟨h1, -⟩ := h
      subst h1
      refine ⟨randFloor_bounds rx tileCountX (by decide),
        randFloor_bounds ry tileCountY (by decide), ?_, rfl⟩
      intro seg hseg heq
      apply hfree
      rw [List.any_eq_true]
      exact ⟨seg, hseg, (sameCell_iff _ _).mpr heq⟩

@[simp] theorem levelProgression_food (s : GameState) :
    (levelProgression s).food = s.food := by
  unfold levelProgression; simp only []; split <;> rfl

/-- C3: whenever `generateFood` returns, the food it leaves is a cell of the grid that
differs from every cell of the body it was given, and `glowIntensity` is 0; it returns
at once when the first cell drawn is free; and after a food-eating tick the food
differs from every cell of the new body, the head just prepended included. -/
theorem food_placed_on_free_cell :
    (∀ (body : List Vec) (food food1 : Food) (draws rest : List Rand),
      generateFood body food draws = some (food1, rest) →
      (0 ≤ food1.position.x ∧ food1.position.x < tileCountX) ∧
        (0 ≤ food1.position.y ∧ food1.position.y < tileCountY) ∧
        (∀ seg ∈ body, seg ≠ food1.position) ∧ food1.glowIntensity = 0) ∧
    (∀ (body : List Vec) (food : Food) (rx ry : Rand) (rest : List Rand),
      (∀ seg ∈ body, seg ≠ { x := randFloor rx tileCountX, y := randFloor ry tileCountY }) →
      generateFood body food (rx :: ry :: rest)
        = some ({ position := { x := randFloor rx tileCountX, y := randFloor ry tileCountY },
                  glowIntensity := 0 }, rest)) ∧
    (∀ (s s1 : GameState) (draws rest : List Rand), tickEats s = true →
      gameUpdateLogic s draws = some (s1, rest) →
      (∃ head, nextHead (applyQueuedInput s) = some head ∧
        s1.snake.body = head :: s.snake.body) ∧
        (0 ≤ s1.food.position.x ∧ s1.food.position.x < tileCountX) ∧
        (0 ≤ s1.food.position.y ∧ s1.food.position.y < tileCountY) ∧
        (∀ seg ∈ s1.snake.body, seg ≠ s1.food.position) ∧ s1.food.glowIntensity = 0) := by
  refine ⟨fun body food food1 draws rest h => generateFood_sound body draws food food1 rest h,
    ?_, ?_⟩
  · intro body food rx ry rest hfree
    rw [generateFood]
    have : (body.any fun segment =>
        sameCell segment { x := randFloor rx tileCountX, y := randFloor ry tileCountY })
        = false := by
      rw [List.any_eq_false]
      intro seg hseg hsame
      exact hfree seg hseg ((sameCell_iff _ _).mp hsame)
    simp [this]
  · intro s s1 draws rest he h
    obtain ⟨head, hh, hcase⟩ := gameUpdateLogic_elim h
    unfold tickEats at he
    simp only [hh, applyQueuedInput_body, applyQueuedInput_food, Bool.and_eq_true,
      Bool.not_eq_true'] at he
    obtain ⟨⟨ho, hc⟩, hf⟩ := he
    rcases hcase with ⟨ho1, -⟩ | ⟨-, hc1, -⟩ | ⟨-, -, hf1, -⟩ | ⟨-, -, -, food, hg, hs⟩
    · rw [ho] at ho1; exact absurd ho1 (by decide)
    · rw [hc] at hc1; exact absurd hc1 (by decide)
    · rw [hf] at hf1; exact absurd hf1 (by decide)
    · obtain ⟨hx, hy, hfree, hglow⟩ := generateFood_sound _ _ _ _ _ hg
      subst hs
      refine ⟨⟨head, hh, by simp [addScore, growHead]⟩, ?_, ?_, ?_, ?_⟩
      · simpa using hx
      · simpa using hy
      · simpa [addScore, growHead] using hfree
      · simpa using hglow

/-- C3 at a concrete call: with the body on `(15, 15)` and `(16, 15)` the first cell
drawn is occupied, the second is kept, and it is a free cell of the grid. -/
theorem food_placed_on_free_cell_witness :
    generateFood [{ x := 16, y := 15 }, { x := 15, y := 15 }] loadState.food retryDraws
        = some ({ position := { x := 30, y := 20 }, glowIntensity := 0 }, []) ∧
      ∀ seg ∈ [({ x := 16, y := 15 } : Vec), { x := 15, y := 15 }],
        seg ≠ { x := 30, y := 20 } :=
  ⟨by decide,
    (food_placed_on_free_cell.1 [{ x := 16, y := 15 }, { x := 15, y := 15 }] loadState.food
      { position := { x := 30, y := 20 }, glowIntensity := 0 } retryDraws [] (by decide)).2.2.1⟩

/-! ## C4: input queue capacity -/

theorem reachable_run (fuel : Nat) :
    ∀ (es : List Event) (s s1 : GameState), Reachable s → run fuel s es = some s1 →
      Reachable s1
  | [], s, s1, hs, h => by
    simp only [run, Option.some.injEq] at h
    exact h ▸ hs
  | e :: es, s, s1, hs, h => by
    rw [run] at h
    split at h
    · simp at h
    · rename_i s2 hstep
      exact reachable_run fuel es s2 s1 (Reachable.step fuel s e s2 hs hstep) h

/-- The three ways a key press can leave the queue: untouched, one entry appended
below capacity, or the oldest entry dropped and one appended at or above capacity. -/
theorem handleKeyPress_inputQueue_cases (s : GameState) (key : Key) :
    (handleKeyPress s key).inputQueue = s.inputQueue ∨
      (∃ d, s.inputQueue.length < maxQueue s ∧
        (handleKeyPress s key).inputQueue = s.inputQueue ++ [d]) ∨
      (∃ d, ¬ s.inputQueue.length < maxQueue s ∧
        (handleKeyPress s key).inputQueue = s.inputQueue.tail ++ [d]) := by
  unfold handleKeyPress
  simp only []
  split
  · exact Or.inl rfl
  · split
    · exact Or.inl rfl
    · split
      · exact Or.inl rfl
      · rename_i desired hd
        split
        · exact Or.inl rfl
        · split
          · split
            · rename_i hlt
              exact Or.inr (Or.inl ⟨desired, hlt, rfl⟩)
            · rename_i hlt
              exact Or.inr (Or.inr ⟨desired, hlt, rfl⟩)
          · exact Or.inl rfl

theorem maxQueue_cases (s : GameState) : maxQueue s = 2 ∨ maxQueue s = 4 := by
  unfold maxQueue
  split
  · exact Or.inr rfl
  · exact Or.inl rfl

theorem maxQueue_congr {s s1 : GameState} (h : s1.snake.body = s.snake.body) :
    maxQueue s1 = maxQueue s := by
  unfold maxQueue nearWall
  rw [h]

/-- A key press keeps the queue within the larger of the capacity of the call and the
length it had before. -/
theorem handleKeyPress_length_le (s : GameState) (key : Key) :
    (handleKeyPress s key).inputQueue.length ≤ max (maxQueue s) s.inputQueue.length := by
  rcases handleKeyPress_inputQueue_cases s key with h | ⟨d, hlt, h⟩ | ⟨d, hlt, h⟩
  · rw [h]; exact le_max_right _ _
  · rw [h, List.length_append, List.length_singleton]
    exact le_max_of_le_left hlt
  · rw [h, List.length_append, List.length_singleton, List.length_tail]
    have := maxQueue_cases s
    have : 1 ≤ s.inputQueue.length := by omega
    exact le_max_of_le_right (by omega)

/-- How far a reachable queue can overshoot: it holds at most 4 entries near a wall
and at most 3 elsewhere. -/
theorem queueInv_reachable (s : GameState) (hs : Reachable s) :
    s.inputQueue.length ≤ max (maxQueue s) 3 := by
  refine reachable_invariant (fun s => s.inputQueue.length ≤ max (maxQueue s) 3)
    ?_ ?_ ?_ ?_ ?_ ?_ ?_ ?_ ?_ s hs
  · intro draws s h
    unfold init at h
    split at h
    · simp at h
    · simp at h; subst h; simp [loadState]
  · intro s draws s1 rest hinv h
    obtain ⟨-, -, hq1⟩ := tick_directions h
    simp only [] at hinv ⊢
    rw [hq1]
    have h4 : s.inputQueue.length ≤ 4 := by
      rcases maxQueue_cases s with h2 | h2 <;> rw [h2] at hinv <;>
        simp only [le_max_iff] at hinv <;> omega
    apply le_max_of_le_right
    rcases applyQueuedInput_cases s with ⟨-, -, h2⟩ | ⟨q0, r, hqr, -, -, h2⟩ |
      ⟨q0, r, hqr, -, -, h2⟩
    · rw [h2]; simp
    · rw [h2]; rw [hqr] at h4; simp at h4; omega
    · rw [h2]; rw [hqr] at h4; simp at h4; omega
  · intro s r n h
    exact h
  · intro s key hinv
    simp only [] at hinv ⊢
    rw [maxQueue_congr (show (handleKeyPress s key).snake.body = s.snake.body by simp)]
    have := handleKeyPress_length_le s key
    rcases maxQueue_cases s with h2 | h2 <;> rw [h2] at hinv this ⊢ <;>
      simp only [le_max_iff] at hinv this ⊢ <;> omega
  · intro s id s1 h hf
    obtain ⟨hb, -, -, hq, -⟩ := fireTimer_frame hf
    simp only [] at h ⊢
    rw [hq, maxQueue_congr hb]
    exact h
  · intro s h
    exact h
  · intro s draws s1 rest _ h
    unfold restartGame at h
    split at h
    · simp only [] at h
      split at h
      · simp at h
      · simp at h
        rw [← h.1]
        simp
    · simp at h
  · intro s draws s1 rest _ h
    unfold returnToStart at h
    split at h
    · simp only [] at h
      split at h
      · simp at h
      · simp at h
        rw [← h.1]
        simp
    · simp at h
  · intro s d h
    exact h

/-- C4 fails on the code: after `queueTrace` the head is on `(16, 5)`, away from every
wall, so `maxQueue` is 2, while three inputs buffered at `(16, 4)` (capacity 4) are
still queued; the direction key `down` is accepted, the rotate branch of lines 712-716
drops one entry and pushes one, and the queue again holds three entries, more than the
capacity in force for that call. -/
theorem queue_exceeds_capacity :
    (run 1 loadedState queueTrace).map
        (fun s => (s.snake.body, maxQueue s, s.inputQueue))
      = some ([{ x := 16, y := 5 }], 2,
          [{ x := 1, y := 0 }, { x := 0, y := 1 }, { x := 1, y := 0 }]) ∧
      (run 1 loadedState queueTrace).map
        (fun s => ((handleKeyPress s .down).inputQueue,
          (handleKeyPress s .down).inputQueue.length))
      = some ([{ x := 0, y := 1 }, { x := 1, y := 0 }, { x := 0, y := 1 }], 3) ∧
      ¬ (∀ (s : GameState) (key : Key), Reachable s →
        (desiredDirection key).isSome = true →
        (handleKeyPress s key).inputQueue.length ≤ maxQueue s) := by
  refine ⟨by decide!, by decide!, ?_⟩
  intro hall
  obtain ⟨s, hrun⟩ := Option.isSome_iff_exists.mp
    (show (run 1 loadedState queueTrace).isSome = true by decide!)
  have hreach : Reachable s := reachable_run 1 queueTrace loadedState s loadedState_reachable hrun
  have hle := hall s .down hreach rfl
  have hval : (run 1 loadedState queueTrace).map
      (fun s => decide ((handleKeyPress s .down).inputQueue.length ≤ maxQueue s))
      = some false := by decide!
  rw [hrun] at hval
  simp only [Option.map_some', Option.some.injEq, decide_eq_false_iff_not] at hval
  exact hval hle

/-- A key press never takes the queue beyond the capacity of the call when the queue
was within that capacity before the call. -/
theorem handleKeyPress_within_capacity (s : GameState) (key : Key)
    (hbefore : s.inputQueue.length ≤ maxQueue s) :
    (handleKeyPress s key).inputQueue.length ≤ maxQueue s := by
  have hle := handleKeyPress_length_le s key
  rcases maxQueue_cases s with h2 | h2 <;> rw [h2] at hbefore hle ⊢ <;>
    simp only [le_max_iff] at hle <;> omega

/-! ## C5: recovery within the grace time -/

/-- One event keeps every property that each function of the page keeps. -/
theorem step_invariant (P : GameState → Prop)
    (htick : ∀ s draws s1 rest, P s → gameUpdateLogic s draws = some (s1, rest) → P s1)
    (hrender : ∀ s r n, P s →
      P { s with config := { s.config with render := r }, logicTicks := n })
    (hkey : ∀ s key, P s → P (handleKeyPress s key))
    (htimer : ∀ s id s1, P s → fireTimer s id = some s1 → P s1)
    (hstart : ∀ s, P s → P (startGame s))
    (hrestart : ∀ s draws s1 rest, P s → restartGame s draws = some (s1, rest) → P s1)
    (hreturn : ∀ s draws s1 rest, P s → returnToStart s draws = some (s1, rest) → P s1)
    (hdiff : ∀ s d, P s → P { s with config := { s.config with selectedDifficulty := d } })
    (fuel : Nat) (s : GameState) (e : Event) (s1 : GameState) (ih : P s)
    (h : step fuel s e = some s1) : P s1 := by
  cases e with
  | frame timestamp draws =>
    simp only [step, Option.map_eq_some'] at h
    obtain ⟨⟨s2, rest⟩, h, rfl⟩ := h
    unfold render at h
    simp only [] at h
    split at h
    · exact catchUp_invariant P htick hrender _ _ _ _ _
        (hrender _ _ _ (hrender s _ s.logicTicks ih)) h
    · simp at h
      rw [← h.1]
      exact hrender s _ s.logicTicks ih
  | keyDown key =>
    simp only [step, Option.some.injEq] at h
    exact h ▸ hkey s key ih
  | timer id => exact htimer s id s1 ih h
  | startGame =>
    simp only [step, Option.some.injEq] at h
    exact h ▸ hstart s ih
  | restartGame draws =>
    simp only [step, Option.map_eq_some'] at h
    obtain ⟨⟨s2, rest⟩, h, rfl⟩ := h
    exact hrestart s draws s2 rest ih h
  | returnToStart draws =>
    simp only [step, Option.map_eq_some'] at h
    obtain ⟨⟨s2, rest⟩, h, rfl⟩ := h
    exact hreturn s draws s2 rest ih h
  | selectDifficulty d =>
    simp only [step, Option.some.injEq] at h
    exact h ▸ hdiff s d ih

/-- A sequence of events keeps what every single event keeps. -/
theorem run_invariant (P : GameState → Prop) (fuel : Nat)
    (hstep : ∀ s e s1, P s → step fuel s e = some s1 → P s1) :
    ∀ (es : List Event) (s s1 : GameState), P s → run fuel s es = some s1 → P s1
  | [], s, s1, hs, h => by
    simp only [run, Option.some.injEq] at h
    exact h ▸ hs
  | e :: es, s, s1, hs, h => by
    rw [run] at h
    split at h
    · simp at h
    · rename_i s2 hs2
      exact run_invariant P fuel hstep es s2 s1 (hstep s e s2 hs hs2) h

theorem cancelled_setTimeout {id : Nat} {s : GameState} (kind : TimerKind)
    (h : Cancelled id s) : Cancelled id (setTimeout s kind).1 := by
  obtain ⟨hlt, hno⟩ := h
  refine ⟨Nat.lt_succ_of_lt hlt, ?_⟩
  intro k hmem
  simp only [setTimeout, List.mem_append, List.mem_singleton, Prod.mk.injEq] at hmem
  rcases hmem with hmem | ⟨heq, -⟩
  · exact hno k hmem
  · omega

theorem cancelled_clearTimeout {id : Nat} {s : GameState} (handle : Option Nat)
    (h : Cancelled id s) : Cancelled id (clearTimeout s handle) := by
  obtain ⟨hlt, hno⟩ := h
  cases handle with
  | none => exact ⟨hlt, hno⟩
  | some j =>
    refine ⟨hlt, ?_⟩
    intro k hmem
    simp only [clearTimeout, List.mem_filter] at hmem
    exact hno k hmem.1

/-- Cancelling the handle itself: `clearTimeout` removes every timer under it. -/
theorem cancelled_of_clearTimeout {id : Nat} {s : GameState} (hlt : id < s.nextTimerId) :
    Cancelled id (clearTimeout s (some id)) := by
  refine ⟨hlt, ?_⟩
  intro k hmem
  simp [clearTimeout, List.mem_filter] at hmem

theorem cancelled_congr {id : Nat} {s s1 : GameState} (ht : s1.timers = s.timers)
    (hn : s1.nextTimerId = s.nextTimerId) (h : Cancelled id s) : Cancelled id s1 := by
  unfold Cancelled
  rw [ht, hn]
  exact h

theorem cancelled_endWallGrace {id : Nat} {s : GameState} (h : Cancelled id s) :
    Cancelled id (endWallGrace s) := by
  unfold endWallGrace
  split
  · exact cancelled_congr rfl rfl (cancelled_clearTimeout _ h)
  · exact h

theorem cancelled_endTailGrace {id : Nat} {s : GameState} (h : Cancelled id s) :
    Cancelled id (endTailGrace s) := by
  unfold endTailGrace
  split
  · exact cancelled_congr rfl rfl (cancelled_clearTimeout _ h)
  · exact h

theorem cancelled_startWallGrace {id : Nat} {s : GameState} (h : Cancelled id s) :
    Cancelled id (startWallGrace s) :=
  cancelled_congr rfl rfl (cancelled_setTimeout .wallGrace h)

theorem cancelled_startTailGrace {id : Nat} {s : GameState} (h : Cancelled id s) :
    Cancelled id (startTailGrace s) :=
  cancelled_congr rfl rfl (cancelled_setTimeout .tailGrace h)

@[simp] theorem applyQueuedInput_timers (s : GameState) :
    (applyQueuedInput s).timers = s.timers := by
  unfold applyQueuedInput; split <;> [rfl; (split <;> rfl)]

@[simp] theorem applyQueuedInput_nextTimerId (s : GameState) :
    (applyQueuedInput s).nextTimerId = s.nextTimerId := by
  unfold applyQueuedInput; split <;> [rfl; (split <;> rfl)]

@[simp] theorem levelProgression_timers (s : GameState) :
    (levelProgression s).timers = s.timers := by
  unfold levelProgression; simp only []; split <;> rfl

@[simp] theorem levelProgression_nextTimerId (s : GameState) :
    (levelProgression s).nextTimerId = s.nextTimerId := by
  unfold levelProgression; simp only []; split <;> rfl

/-- The part of a tick after the wall test keeps a handle cancelled. -/
theorem cancelled_after_wall {id : Nat} {s s1 : GameState} {draws rest : List Rand}
    (hx : Cancelled id (endWallGrace (applyQueuedInput s)))
    (h : gameUpdateLogic s draws = some (s1, rest))
    (ho : ∀ head, nextHead (applyQueuedInput s) = some head → outOfBounds head = false) :
    Cancelled id s1 := by
  obtain ⟨head, hh, hcase⟩ := gameUpdateLogic_elim h
  have hob := ho head hh
  rcases hcase with ⟨ho1, -⟩ | ⟨-, -, -, hs⟩ | ⟨-, -, -, -, hs⟩ | ⟨-, -, -, food, -, hs⟩
  · rw [hob] at ho1; exact absurd ho1 (by decide)
  · rcases hs with ⟨-, rfl⟩ | ⟨-, rfl⟩
    · exact cancelled_startTailGrace hx
    · exact hx
  · subst hs
    exact cancelled_congr rfl rfl (cancelled_endTailGrace hx)
  · subst hs
    exact cancelled_congr (by simp [addScore, growHead]) (by simp [addScore, growHead])
      (cancelled_endTailGrace hx)

/-- A tick keeps a cancelled handle cancelled. -/
theorem cancelled_tick {id : Nat} {s s1 : GameState} {draws rest : List Rand}
    (hc : Cancelled id s) (h : gameUpdateLogic s draws = some (s1, rest)) :
    Cancelled id s1 := by
  have h0 : Cancelled id (applyQueuedInput s) := cancelled_congr (by simp) (by simp) hc
  obtain ⟨head, hh, hcase⟩ := gameUpdateLogic_elim h
  cases hob : outOfBounds head with
  | true =>
    rcases hcase with ⟨-, -, hs⟩ | ⟨ho1, -⟩ | ⟨ho1, -⟩ | ⟨ho1, -⟩
    · rcases hs with ⟨-, rfl⟩ | ⟨-, rfl⟩
      · exact cancelled_startWallGrace h0
      · exact h0
    all_goals rw [hob] at ho1; exact absurd ho1 (by decide)
  | false =>
    refine cancelled_after_wall (cancelled_endWallGrace h0) h ?_
    intro head2 hh2
    rw [hh] at hh2
    cases hh2
    exact hob

theorem cancelled_gameOver {id : Nat} {s : GameState} (h : Cancelled id s) :
    Cancelled id (gameOver s) :=
  cancelled_congr rfl rfl (cancelled_setTimeout .deathShake h)

theorem cancelled_fireTimer {id j : Nat} {s s1 : GameState} (hc : Cancelled id s)
    (h : fireTimer s j = some s1) : Cancelled id s1 := by
  unfold fireTimer at h
  split at h
  · simp at h
  · rename_i t _
    simp only [Option.some.injEq] at h
    subst h
    have h1 : Cancelled id { s with timers := s.timers.filter (fun u => u.1 != j) } :=
      cancelled_congr rfl rfl (cancelled_clearTimeout (some j) hc)
    cases t.2 <;> simp only [timerCallback]
    · split
      · exact cancelled_congr rfl rfl (cancelled_gameOver h1)
      · exact h1
    · split
      · exact cancelled_congr rfl rfl (cancelled_gameOver h1)
      · exact h1
    · exact h1

@[simp] theorem handleKeyPress_timers (s : GameState) (key : Key) :
    (handleKeyPress s key).timers = s.timers := by
  unfold handleKeyPress
  simp only []
  repeat' split
  all_goals rfl

@[simp] theorem handleKeyPress_nextTimerId (s : GameState) (key : Key) :
    (handleKeyPress s key).nextTimerId = s.nextTimerId := by
  unfold handleKeyPress
  simp only []
  repeat' split
  all_goals rfl

/-- Once cancelled, a handle stays cancelled through every sequence of events: its
callback can never run. -/
theorem cancelled_run {id : Nat} (fuel : Nat) (es : List Event) (s s1 : GameState)
    (hc : Cancelled id s) (h : run fuel s es = some s1) : Cancelled id s1 := by
  refine run_invariant (Cancelled id) fuel ?_ es s s1 hc h
  intro s e s1 hs hstep
  refine step_invariant (Cancelled id) ?_ ?_ ?_ ?_ ?_ ?_ ?_ ?_ fuel s e s1 hs hstep
  · intro s draws s1 rest hc h
    exact cancelled_tick hc h
  · intro s r n h
    exact h
  · intro s key h
    exact cancelled_congr (by simp) (by simp) h
  · intro s j s1 hc h
    exact cancelled_fireTimer hc h
  · intro s h
    exact h
  · intro s draws s1 rest hc h
    unfold restartGame at h
    split at h
    · simp only [] at h
      split at h
      · simp at h
      · simp at h
        rw [← h.1]
        exact hc
    · simp at h
  · intro s draws s1 rest hc h
    unfold returnToStart at h
    split at h
    · simp only [] at h
      split at h
      · simp at h
      · simp at h
        rw [← h.1]
        exact hc
    · simp at h
  · intro s d h
    exact h

theorem fireTimer_none_of_cancelled {id : Nat} {s : GameState} (h : Cancelled id s) :
    fireTimer s id = none := by
  unfold fireTimer
  split
  · rfl
  · rename_i t ht
    exfalso
    have hmem := List.mem_of_find?_eq_some ht
    have hid := List.find?_some ht
    simp only [beq_iff_eq] at hid
    exact h.2 t.2 (by rw [← hid]; exact hmem)

@[simp] theorem clearTimeout_gameOverCalls (s : GameState) (h : Option Nat) :
    (clearTimeout s h).gameOverCalls = s.gameOverCalls := by
  cases h <;> rfl

@[simp] theorem clearTimeout_nextTimerId (s : GameState) (h : Option Nat) :
    (clearTimeout s h).nextTimerId = s.nextTimerId := by
  cases h <;> rfl

@[simp] theorem applyQueuedInput_gameOverCalls (s : GameState) :
    (applyQueuedInput s).gameOverCalls = s.gameOverCalls := by
  unfold applyQueuedInput; split <;> [rfl; (split <;> rfl)]

@[simp] theorem endWallGrace_gameOverCalls (s : GameState) :
    (endWallGrace s).gameOverCalls = s.gameOverCalls := by
  unfold endWallGrace; split <;> simp

@[simp] theorem endTailGrace_gameOverCalls (s : GameState) :
    (endTailGrace s).gameOverCalls = s.gameOverCalls := by
  unfold endTailGrace; split <;> simp

@[simp] theorem levelProgression_gameOverCalls (s : GameState) :
    (levelProgression s).gameOverCalls = s.gameOverCalls := by
  unfold levelProgression; simp only []; split <;> rfl

@[simp] theorem levelProgression_gameStarted (s : GameState) :
    (levelProgression s).config.gameStarted = s.config.gameStarted := by
  unfold levelProgression; simp only []; split <;> rfl

@[simp] theorem levelProgression_isPaused (s : GameState) :
    (levelProgression s).config.isPaused = s.config.isPaused := by
  unfold levelProgression; simp only []; split <;> rfl

/-- A tick never calls `gameOver` and never changes the started or paused flag. -/
theorem tick_keeps_run {s s1 : GameState} {draws rest : List Rand}
    (h : gameUpdateLogic s draws = some (s1, rest)) :
    s1.gameOverCalls = s.gameOverCalls ∧ s1.config.gameStarted = s.config.gameStarted ∧
      s1.config.isPaused = s.config.isPaused := by
  obtain ⟨head, -, hcase⟩ := gameUpdateLogic_elim h
  rcases hcase with ⟨-, -, hs⟩ | ⟨-, -, -, hs⟩ | ⟨-, -, -, -, hs⟩ | ⟨-, -, -, food, -, hs⟩
  · rcases hs with ⟨-, rfl⟩ | ⟨-, rfl⟩ <;> simp [startWallGrace, setTimeout]
  · rcases hs with ⟨-, rfl⟩ | ⟨-, rfl⟩ <;> simp [startTailGrace, setTimeout]
  · subst hs
    simp [dropTail, growHead]
  · subst hs
    simp [addScore, growHead]

@[simp] theorem endWallGrace_wallGraceActive (s : GameState) :
    (endWallGrace s).snake.wallGraceActive = false := by
  unfold endWallGrace; split
  · rfl
  · rename_i h; simpa using h

@[simp] theorem endTailGrace_tailGraceActive (s : GameState) :
    (endTailGrace s).snake.tailGraceActive = false := by
  unfold endTailGrace; split
  · rfl
  · rename_i h; simpa using h

@[simp] theorem endTailGrace_wallGraceActive (s : GameState) :
    (endTailGrace s).snake.wallGraceActive = s.snake.wallGraceActive := by
  unfold endTailGrace; split <;> simp

@[simp] theorem endWallGrace_tailGraceActive (s : GameState) :
    (endWallGrace s).snake.tailGraceActive = s.snake.tailGraceActive := by
  unfold endWallGrace; split <;> simp

@[simp] theorem endWallGrace_tailGraceTimeout (s : GameState) :
    (endWallGrace s).snake.tailGraceTimeout = s.snake.tailGraceTimeout := by
  unfold endWallGrace; split <;> simp

@[simp] theorem endWallGrace_nextTimerId (s : GameState) :
    (endWallGrace s).nextTimerId = s.nextTimerId := by
  unfold endWallGrace; split <;> simp

@[simp] theorem applyQueuedInput_wallGrace (s : GameState) :
    (applyQueuedInput s).snake.wallGraceActive = s.snake.wallGraceActive ∧
      (applyQueuedInput s).snake.wallGraceTimeout = s.snake.wallGraceTimeout ∧
      (applyQueuedInput s).snake.tailGraceActive = s.snake.tailGraceActive ∧
      (applyQueuedInput s).snake.tailGraceTimeout = s.snake.tailGraceTimeout := by
  unfold applyQueuedInput; split <;> [simp; (split <;> simp)]

/-- Lines 296-299 cancel the wall timer whose handle the snake holds. -/
theorem endWallGrace_cancels {id : Nat} {s : GameState} (ha : s.snake.wallGraceActive = true)
    (ht : s.snake.wallGraceTimeout = some id) (hlt : id < s.nextTimerId) :
    Cancelled id (endWallGrace s) := by
  unfold endWallGrace
  rw [if_pos ha, ht]
  exact cancelled_congr rfl rfl (cancelled_of_clearTimeout hlt)

/-- Lines 316-319 cancel the tail timer whose handle the snake holds. -/
theorem endTailGrace_cancels {id : Nat} {s : GameState} (ha : s.snake.tailGraceActive = true)
    (ht : s.snake.tailGraceTimeout = some id) (hlt : id < s.nextTimerId) :
    Cancelled id (endTailGrace s) := by
  unfold endTailGrace
  rw [if_pos ha, ht]
  exact cancelled_congr rfl rfl (cancelled_of_clearTimeout hlt)

/-- The wall half of C5. -/
theorem wall_recovery {s s1 : GameState} {draws rest : List Rand} {id : Nat} {head : Vec}
    (ha : s.snake.wallGraceActive = true) (ht : s.snake.wallGraceTimeout = some id)
    (hlt : id < s.nextTimerId) (hh : nextHead (applyQueuedInput s) = some head)
    (ho : outOfBounds head = false) (h : gameUpdateLogic s draws = some (s1, rest)) :
    s1.snake.wallGraceActive = false ∧ Cancelled id s1 := by
  have hq := applyQueuedInput_wallGrace s
  have hx : Cancelled id (endWallGrace (applyQueuedInput s)) :=
    endWallGrace_cancels (by rw [hq.1]; exact ha) (by rw [hq.2.1]; exact ht) (by simpa using hlt)
  refine ⟨?_, cancelled_after_wall hx h ?_⟩
  · obtain ⟨head2, hh2, hcase⟩ := gameUpdateLogic_elim h
    rw [hh] at hh2
    cases hh2
    rcases hcase with ⟨ho1, -⟩ | ⟨-, -, -, hs⟩ | ⟨-, -, -, -, hs⟩ | ⟨-, -, -, food, -, hs⟩
    · rw [ho] at ho1; exact absurd ho1 (by decide)
    · rcases hs with ⟨-, rfl⟩ | ⟨-, rfl⟩ <;> simp [startTailGrace, setTimeout]
    · subst hs; simp [dropTail, growHead]
    · subst hs; simp [addScore, growHead]
  · intro head2 hh2
    rw [hh] at hh2
    cases hh2
    exact ho

/-- The tail half of C5. -/
theorem tail_recovery {s s1 : GameState} {draws rest : List Rand} {id : Nat} {head : Vec}
    (ha : s.snake.tailGraceActive = true) (ht : s.snake.tailGraceTimeout = some id)
    (hlt : id < s.nextTimerId) (hh : nextHead (applyQueuedInput s) = some head)
    (ho : outOfBounds head = false) (hc : checkSelfCollision s.snake.body head = false)
    (h : gameUpdateLogic s draws = some (s1, rest)) :
    s1.snake.tailGraceActive = false ∧ Cancelled id s1 := by
  have hq := applyQueuedInput_wallGrace s
  have hx : Cancelled id (endTailGrace (endWallGrace (applyQueuedInput s))) :=
    endTailGrace_cancels (by simp [hq.2.2.1, ha]) (by simp [hq.2.2.2, ht]) (by simpa using hlt)
  obtain ⟨head2, hh2, hcase⟩ := gameUpdateLogic_elim h
  rw [hh] at hh2
  cases hh2
  rcases hcase with ⟨ho1, -⟩ | ⟨-, hc1, -⟩ | ⟨-, -, -, -, hs⟩ | ⟨-, -, -, food, -, hs⟩
  · rw [ho] at ho1; exact absurd ho1 (by decide)
  · rw [hc] at hc1; exact absurd hc1 (by decide)
  · subst hs
    exact ⟨by simp [dropTail, growHead], cancelled_congr rfl rfl hx⟩
  · subst hs
    exact ⟨by simp [addScore, growHead],
      cancelled_congr (by simp [addScore, growHead]) (by simp [addScore, growHead]) hx⟩

theorem grownLoaded_reachable : Reachable grownLoaded :=
  Reachable.init [drawFor 15 50 (by decide), drawFor 14 38 (by decide)] grownLoaded
    (by decide)

theorem wallGraceState_runs : run 1 loadedState wallTrace = some wallGraceState := by
  decide!

theorem tailGraceState_runs : run 1 grownLoaded tailTrace = some tailGraceState := by
  decide!


theorem wallGraceState_reachable : Reachable wallGraceState :=
  reachable_run 1 wallTrace loadedState wallGraceState loadedState_reachable wallGraceState_runs

theorem tailGraceState_reachable : Reachable tailGraceState :=
  reachable_run 1 tailTrace grownLoaded tailGraceState grownLoaded_reachable tailGraceState_runs

/-- C5: when a wall grace period is pending (flag set, the snake holding the handle of
its timer) and a tick computes a head inside the grid, the tick clears
`wallGraceActive` and cancels the timer; when a tail grace period is pending and a tick
computes a head inside the grid and on no body cell, the tick clears `tailGraceActive`
and cancels the timer.  In both cases the tick calls no `gameOver`, leaves the game
started, and after it, through every sequence of events, the cancelled timer can never
fire: its callback never runs and so never calls `gameOver`. -/
theorem recovery_cancels_grace :
    (∀ (s s1 : GameState) (draws rest : List Rand) (id : Nat) (head : Vec),
      s.snake.wallGraceActive = true → s.snake.wallGraceTimeout = some id →
      id < s.nextTimerId → nextHead (applyQueuedInput s) = some head →
      outOfBounds head = false → gameUpdateLogic s draws = some (s1, rest) →
      s1.snake.wallGraceActive = false ∧ (∀ kind, (id, kind) ∉ s1.timers) ∧
        s1.gameOverCalls = s.gameOverCalls ∧ s1.config.gameStarted = s.config.gameStarted ∧
        ∀ fuel es t, run fuel s1 es = some t → fireTimer t id = none) ∧
    (∀ (s s1 : GameState) (draws rest : List Rand) (id : Nat) (head : Vec),
      s.snake.tailGraceActive = true → s.snake.tailGraceTimeout = some id →
      id < s.nextTimerId → nextHead (applyQueuedInput s) = some head →
      outOfBounds head = false → checkSelfCollision s.snake.body head = false →
      gameUpdateLogic s draws = some (s1, rest) →
      s1.snake.tailGraceActive = false ∧ (∀ kind, (id, kind) ∉ s1.timers) ∧
        s1.gameOverCalls = s.gameOverCalls ∧ s1.config.gameStarted = s.config.gameStarted ∧
        ∀ fuel es t, run fuel s1 es = some t → fireTimer t id = none) := by
  constructor
  · intro s s1 draws rest id head ha ht hlt hh ho h
    obtain ⟨hflag, hc⟩ := wall_recovery ha ht hlt hh ho h
    obtain ⟨hg, hst, -⟩ := tick_keeps_run h
    exact ⟨hflag, hc.2, hg, hst, fun fuel es t hrun =>
      fireTimer_none_of_cancelled (cancelled_run fuel es s1 t hc hrun)⟩
  · intro s s1 draws rest id head ha ht hlt hh ho hcol h
    obtain ⟨hflag, hc⟩ := tail_recovery ha ht hlt hh ho hcol h
    obtain ⟨hg, hst, -⟩ := tick_keeps_run h
    exact ⟨hflag, hc.2, hg, hst, fun fuel es t hrun =>
      fireTimer_none_of_cancelled (cancelled_run fuel es s1 t hc hrun)⟩

/-- C5 on two reachable states.  After `wallTrace` the snake on `(15, 0)` has stepped
out of the grid and holds wall timer 0; with `right` queued the next tick moves to
`(16, 0)`, clears the flag and leaves no timer.  After `tailTrace` the snake has run
into its tail and holds tail timer 0; with `up` queued the next tick moves to the free
cell `(13, 4)`, clears the flag and leaves no timer. -/
theorem recovery_cancels_grace_witness :
    (wallGraceState.snake.wallGraceActive = true ∧
      ∃ s1, gameUpdateLogic wallGraceState [] = some (s1, []) ∧
        s1.snake.body = [{ x := 16, y := 0 }] ∧ s1.snake.wallGraceActive = false ∧
        s1.timers = [] ∧ s1.config.gameStarted = true ∧ fireTimer s1 0 = none) ∧
    (tailGraceState.snake.tailGraceActive = true ∧
      ∃ s1, gameUpdateLogic tailGraceState [] = some (s1, []) ∧
        s1.snake.body = [{ x := 13, y := 4 }, { x := 13, y := 5 }, { x := 13, y := 6 },
          { x := 14, y := 6 }] ∧
        s1.snake.tailGraceActive = false ∧ s1.timers = [] ∧
        s1.config.gameStarted = true ∧ fireTimer s1 0 = none) := by
  constructor
  · refine ⟨by decide!, ?_⟩
    obtain ⟨s1, h⟩ : ∃ s1, gameUpdateLogic wallGraceState [] = some (s1, []) := by
      have hsome : (gameUpdateLogic wallGraceState []).map Prod.snd = some [] := by decide!
      obtain ⟨⟨s1, r⟩, h1, h2⟩ := Option.map_eq_some'.mp hsome
      exact ⟨s1, by rw [h1]; simp only [] at h2; rw [h2]⟩
    have hw := recovery_cancels_grace.1 wallGraceState s1 [] [] 0 { x := 16, y := 0 }
      (by decide!) (by decide!) (by decide!) (by decide!) (by decide!) h
    have hval : (gameUpdateLogic wallGraceState []).map
        (fun r => (r.1.snake.body, r.1.timers, r.1.config.gameStarted))
        = some ([{ x := 16, y := 0 }], [], true) := by decide!
    rw [h] at hval
    simp only [Option.map_some', Option.some.injEq, Prod.mk.injEq] at hval
    exact ⟨s1, h, hval.1, hw.1, hval.2.1, hval.2.2, hw.2.2.2.2 0 [] s1 rfl⟩
  · refine ⟨by decide!, ?_⟩
    obtain ⟨s1, h⟩ : ∃ s1, gameUpdateLogic tailGraceState [] = some (s1, []) := by
      have hsome : (gameUpdateLogic tailGraceState []).map Prod.snd = some [] := by decide!
      obtain ⟨⟨s1, r⟩, h1, h2⟩ := Option.map_eq_some'.mp hsome
      exact ⟨s1, by rw [h1]; simp only [] at h2; rw [h2]⟩
    have hw := recovery_cancels_grace.2 tailGraceState s1 [] [] 0 { x := 13, y := 4 }
      (by decide!) (by decide!) (by decide!) (by decide!) (by decide!) (by decide!) h
    have hval : (gameUpdateLogic tailGraceState []).map
        (fun r => (r.1.snake.body, r.1.timers, r.1.config.gameStarted))
        = some ([{ x := 13, y := 4 }, { x := 13, y := 5 }, { x := 13, y := 6 },
          { x := 14, y := 6 }], [], true) := by decide!
    rw [h] at hval
    simp only [Option.map_some', Option.some.injEq, Prod.mk.injEq] at hval
    exact ⟨s1, h, hval.1, hw.1, hval.2.1, hval.2.2, hw.2.2.2.2 0 [] s1 rfl⟩

@[simp] theorem endWallGrace_timeouts (s : GameState) :
    (endWallGrace s).snake.wallGraceTimeout = s.snake.wallGraceTimeout := by
  unfold endWallGrace; split <;> simp

@[simp] theorem endTailGrace_timeouts (s : GameState) :
    (endTailGrace s).snake.wallGraceTimeout = s.snake.wallGraceTimeout ∧
      (endTailGrace s).snake.tailGraceTimeout = s.snake.tailGraceTimeout ∧
      (endTailGrace s).nextTimerId = s.nextTimerId := by
  unfold endTailGrace; split <;> simp

/-- The handle invariant: in a reachable state a raised grace flag comes with a handle,
and every handle the snake holds was handed out by an earlier `setTimeout`. -/
theorem handleInv_reachable (s : GameState) (hs : Reachable s) :
    (∀ id, s.snake.wallGraceTimeout = some id → id < s.nextTimerId) ∧
      (∀ id, s.snake.tailGraceTimeout = some id → id < s.nextTimerId) ∧
      (s.snake.wallGraceActive = true → s.snake.wallGraceTimeout.isSome = true) ∧
      (s.snake.tailGraceActive = true → s.snake.tailGraceTimeout.isSome = true) := by
  refine reachable_invariant
    (fun s => (∀ id, s.snake.wallGraceTimeout = some id → id < s.nextTimerId) ∧
      (∀ id, s.snake.tailGraceTimeout = some id → id < s.nextTimerId) ∧
      (s.snake.wallGraceActive = true → s.snake.wallGraceTimeout.isSome = true) ∧
      (s.snake.tailGraceActive = true → s.snake.tailGraceTimeout.isSome = true))
    ?_ ?_ ?_ ?_ ?_ ?_ ?_ ?_ ?_ s hs
  · intro draws s h
    unfold init at h
    split at h
    · simp at h
    · simp at h; subst h; simp [loadState]
  · intro s draws s1 rest ⟨h1, h2, h3, h4⟩ h
    obtain ⟨head, -, hcase⟩ := gameUpdateLogic_elim h
    have hq := applyQueuedInput_wallGrace s
    have he := fun x => endTailGrace_timeouts x
    rcases hcase with ⟨-, -, hs⟩ | ⟨-, -, -, hs⟩ | ⟨-, -, -, -, hs⟩ | ⟨-, -, -, food, -, hs⟩
    · rcases hs with ⟨-, rfl⟩ | ⟨-, rfl⟩
      · refine ⟨?_, ?_, ?_, ?_⟩
        · intro id hid
          simp [startWallGrace, setTimeout] at hid ⊢
          omega
        · intro id hid
          simp [startWallGrace, setTimeout, hq.2.2.2] at hid ⊢
          exact Nat.lt_succ_of_lt (h2 id hid)
        · intro _; simp [startWallGrace, setTimeout]
        · intro ha; simp [startWallGrace, setTimeout, hq.2.2.1, hq.2.2.2] at ha ⊢
          simpa using h4 ha
      · simp only [hq.1, hq.2.1, hq.2.2.1, hq.2.2.2, applyQueuedInput_nextTimerId]
        exact ⟨h1, h2, h3, h4⟩
    · rcases hs with ⟨-, rfl⟩ | ⟨-, rfl⟩
      · refine ⟨?_, ?_, ?_, ?_⟩
        · intro id hid
          simp [startTailGrace, setTimeout, hq.2.1] at hid ⊢
          exact Nat.lt_succ_of_lt (h1 id hid)
        · intro id hid
          simp [startTailGrace, setTimeout] at hid ⊢
          omega
        · intro ha; simp [startTailGrace, setTimeout] at ha
        · intro _; simp [startTailGrace, setTimeout]
      · simp only [endWallGrace_timeouts, endWallGrace_tailGraceTimeout,
          endWallGrace_tailGraceActive, endWallGrace_wallGraceActive, endWallGrace_nextTimerId,
          hq.2.1, hq.2.2.1, hq.2.2.2, applyQueuedInput_nextTimerId]
        exact ⟨h1, h2, by intro hf; exact absurd hf (by decide), h4⟩
    · subst hs
      simp only [dropTail, growHead, (he _).1, (he _).2.1, (he _).2.2, endWallGrace_timeouts,
        endWallGrace_tailGraceTimeout, endTailGrace_tailGraceActive,
        endTailGrace_wallGraceActive, endWallGrace_wallGraceActive, endWallGrace_nextTimerId,
        hq.2.1, hq.2.2.2, applyQueuedInput_nextTimerId]
      exact ⟨h1, h2, by intro hf; exact absurd hf (by decide),
        by intro hf; exact absurd hf (by decide)⟩
    · subst hs
      simp only [levelProgression_snake, levelProgression_nextTimerId, addScore, growHead,
        (he _).1, (he _).2.1, (he _).2.2, endWallGrace_timeouts,
        endWallGrace_tailGraceTimeout, endTailGrace_tailGraceActive,
        endTailGrace_wallGraceActive, endWallGrace_wallGraceActive, endWallGrace_nextTimerId,
        hq.2.1, hq.2.2.2, applyQueuedInput_nextTimerId]
      exact ⟨h1, h2, by intro hf; exact absurd hf (by decide),
        by intro hf; exact absurd hf (by decide)⟩
  · intro s r n h
    exact h
  · intro s key h
    simpa using h
  · intro s id s1 ⟨h1, h2, h3, h4⟩ hf
    unfold fireTimer at hf
    split at hf
    · simp at hf
    · rename_i t _
      simp only [Option.some.injEq] at hf
      subst hf
      cases t.2 <;> simp only [timerCallback]
      · split
        · refine ⟨fun id hid => Nat.lt_succ_of_lt (h1 id hid),
            fun id hid => Nat.lt_succ_of_lt (h2 id hid), ?_, h4⟩
          intro hf; cases hf
        · exact ⟨h1, h2, h3, h4⟩
      · split
        · refine ⟨fun id hid => Nat.lt_succ_of_lt (h1 id hid),
            fun id hid => Nat.lt_succ_of_lt (h2 id hid), h3, ?_⟩
          intro hf; cases hf
        · exact ⟨h1, h2, h3, h4⟩
      · exact ⟨h1, h2, h3, h4⟩
  · intro s h
    exact h
  · intro s draws s1 rest hinv h
    unfold restartGame at h
    split at h
    · simp only [] at h
      split at h
      · simp at h
      · simp at h
        rw [← h.1]
        exact hinv
    · simp at h
  · intro s draws s1 rest hinv h
    unfold returnToStart at h
    split at h
    · simp only [] at h
      split at h
      · simp at h
      · simp at h
        rw [← h.1]
        exact hinv
    · simp at h
  · intro s d h
    exact h

/-! ## C6, C7, C8: the end of a run and the resets -/

/-- C6 fails on the code: in the single run `graceClashTrace` the tail grace period
(timer 0) and then the wall grace period (timer 1) are both pending and no tick
recovers.  Timer 0 fires and calls `gameOver`; timer 1 fires afterwards, finds
`wallGraceActive` still set and calls `gameOver` a second time. -/
theorem gameOver_twice_in_one_run :
    (run 1 grownLoaded graceClashTrace).map
        (fun s => (s.snake.body, s.snake.tailGraceActive, s.snake.wallGraceActive))
      = some ([{ x := 13, y := 0 }, { x := 13, y := 1 }, { x := 14, y := 1 },
          { x := 14, y := 0 }], true, true) ∧
    (run 1 grownLoaded graceClashTrace).map
        (fun s => (s.timers, s.config.gameStarted, s.gameOverCalls))
      = some ([(0, TimerKind.tailGrace), (1, TimerKind.wallGrace)], true, 0) ∧
    (run 1 grownLoaded (graceClashTrace ++ [.timer 0])).map
        (fun s => (s.snake.wallGraceActive, s.config.gameStarted, s.gameOverCalls))
      = some (true, false, 1) ∧
    (run 1 grownLoaded (graceClashTrace ++ [.timer 0, .timer 1])).map
        (fun s => (s.config.gameStarted, s.gameOverCalls))
      = some (false, 2) := by
  refine ⟨by decide!, by decide!, by decide!, by decide!⟩

/-- C7 fails on the code: with wall grace pending (timer 0) neither `returnToStart` nor
`restartGame` clears `wallGraceActive` or cancels the timer, and when timer 0 then
fires it calls `gameOver` on the run that follows the reset. -/
theorem reset_keeps_grace_timer :
    (run 1 loadedState (wallTrace ++ [.returnToStart resetDraws, .startGame])).map
        (fun s => (s.snake.wallGraceActive, s.timers, s.config.gameStarted, s.gameOverCalls))
      = some (true, [(0, TimerKind.wallGrace)], true, 0) ∧
    (run 1 loadedState (wallTrace ++ [.returnToStart resetDraws, .startGame, .timer 0])).map
        (fun s => (s.config.gameStarted, s.gameOverCalls))
      = some (false, 1) ∧
    (run 1 loadedState (wallTrace ++ [.restartGame resetDraws])).map
        (fun s => (s.snake.wallGraceActive, s.timers, s.config.gameStarted, s.gameOverCalls))
      = some (true, [(0, TimerKind.wallGrace)], true, 0) ∧
    (run 1 loadedState (wallTrace ++ [.restartGame resetDraws, .timer 0])).map
        (fun s => (s.config.gameStarted, s.gameOverCalls))
      = some (false, 1) := by
  refine ⟨by decide!, by decide!, by decide!, by decide!⟩

/-- C8 fails on the code: after `gameOver` (timer 0 of `wallTrace`) `restartGame`
creates a fresh snake but leaves `gameStarted` false, and the 300 ms of frames that
follow run no logic tick: `logicTicks` stays at 16 and the snake stays on its start
cell, while the accumulator is never fed. -/
theorem restart_after_gameOver_stays_frozen :
    (run 1 loadedState (wallTrace ++ [.timer 0])).map
        (fun s => (s.config.gameStarted, s.gameOverCalls, s.logicTicks))
      = some (false, 1, 16) ∧
    (run 1 loadedState (wallTrace ++ [.timer 0, .restartGame resetDraws])).map
        (fun s => (s.snake.body, s.config.gameStarted, s.config.isPaused,
          s.config.currentSpeed, s.logicTicks))
      = some ([{ x := 18, y := 13 }], false, false, 120, 16) ∧
    (run 1 loadedState
        (wallTrace ++ [.timer 0, .restartGame resetDraws] ++ idleFrames 3000)).map
        (fun s => (s.snake.body, s.config.gameStarted, s.config.render.accumulator,
          s.logicTicks))
      = some ([{ x := 18, y := 13 }], false, some 0, 16) := by
  refine ⟨by decide!, by decide!, by decide!⟩

/-! ## C9: the accumulator -/

theorem speedIncrease_nonneg (d : Difficulty) : 0 ≤ (DIFFICULTY d).speedIncrease := by
  cases d <;> decide

/-- A level-up never raises the tick interval when the difficulty is unchanged. -/
theorem levelProgression_speed (s : GameState) (h : SpeedInv s) :
    SpeedInv (levelProgression s) ∧
      (levelProgression s).config.currentSpeed ≤ s.config.currentSpeed ∧
      30 ≤ (levelProgression s).config.currentSpeed := by
  unfold SpeedInv speedFloor at h ⊢
  have hinc := speedIncrease_nonneg s.config.selectedDifficulty
  have h30 : 30 ≤ s.config.currentSpeed := le_trans (le_max_left _ _) h
  unfold levelProgression
  simp only []
  split
  · rename_i hlvl
    refine ⟨le_refl _, ?_, le_max_left _ _⟩
    simp only []
    refine le_trans (max_le_max (le_refl _) ?_) h
    have : s.config.level * (DIFFICULTY s.config.selectedDifficulty).speedIncrease
        ≤ (s.config.score / (DIFFICULTY s.config.selectedDifficulty).levelThreshold + 1)
          * (DIFFICULTY s.config.selectedDifficulty).speedIncrease :=
      Int.mul_le_mul_of_nonneg_right (le_of_lt hlvl) hinc
    omega
  · exact ⟨h, le_refl _, h30⟩

@[simp] theorem levelProgression_render (s : GameState) :
    (levelProgression s).config.render = s.config.render := by
  unfold levelProgression; simp only []; split <;> rfl

theorem speedInv_congr_render {s : GameState} {r : Render} {n : Nat} (hinv : SpeedInv s) :
    SpeedInv { s with config := { s.config with render := r }, logicTicks := n } := hinv

theorem speedInv_congr {s s1 : GameState} (h : s1.config = s.config) (hinv : SpeedInv s) :
    SpeedInv s1 := by
  unfold SpeedInv speedFloor at hinv ⊢
  rw [h]
  exact hinv

/-- A tick of a run with unchanged difficulty keeps `SpeedInv`, never raises the
interval, leaves it at 30 or more, and does not touch the render bookkeeping. -/
theorem tick_speed {s s1 : GameState} {draws rest : List Rand} (hinv : SpeedInv s)
    (h : gameUpdateLogic s draws = some (s1, rest)) :
    SpeedInv s1 ∧ s1.config.currentSpeed ≤ s.config.currentSpeed ∧
      30 ≤ s1.config.currentSpeed ∧ s1.config.render = s.config.render := by
  have h30 : 30 ≤ s.config.currentSpeed := le_trans (le_max_left _ _) hinv
  have same : ∀ t : GameState, t.config = s.config →
      SpeedInv t ∧ t.config.currentSpeed ≤ s.config.currentSpeed ∧
        30 ≤ t.config.currentSpeed ∧ t.config.render = s.config.render := by
    intro t ht
    refine ⟨speedInv_congr ht hinv, ?_, ?_, ?_⟩ <;> rw [ht]
    exact h30
  obtain ⟨head, -, hcase⟩ := gameUpdateLogic_elim h
  rcases hcase with ⟨-, -, hs⟩ | ⟨-, -, -, hs⟩ | ⟨-, -, -, -, hs⟩ | ⟨-, -, -, food, -, hs⟩
  · rcases hs with ⟨-, rfl⟩ | ⟨-, rfl⟩ <;> exact same _ (by simp)
  · rcases hs with ⟨-, rfl⟩ | ⟨-, rfl⟩ <;> exact same _ (by simp)
  · subst hs
    exact same _ (by simp [dropTail, growHead])
  · subst hs
    have hpre : SpeedInv
        { addScore (growHead (endTailGrace (endWallGrace (applyQueuedInput s))) head) with
          food := food } := by
      unfold SpeedInv speedFloor at hinv ⊢
      simpa [addScore, growHead] using hinv
    obtain ⟨h1, h2, h3⟩ := levelProgression_speed _ hpre
    refine ⟨h1, ?_, h3, ?_⟩
    · refine le_trans h2 ?_
      simp [addScore, growHead]
    · simp [addScore, growHead]

/-- The loop invariant of the catch-up loop survives any number of iterations. -/
theorem catchUpIter_invariant :
    ∀ (n : Nat) (s s1 : GameState) (draws rest : List Rand), SpeedInv s → AccNonneg s →
      catchUpIter n s draws = some (s1, rest) → SpeedInv s1 ∧ AccNonneg s1
  | 0, s, s1, draws, rest, hsp, hacc, h => by
    simp only [catchUpIter, Option.some.injEq, Prod.mk.injEq] at h
    rw [← h.1]
    exact ⟨hsp, hacc⟩
  | n + 1, s, s1, draws, rest, hsp, hacc, h => by
    rw [catchUpIter] at h
    split at h
    · simp at h
    · rename_i acc hacceq
      split at h
      · rename_i htest
        split at h
        · simp at h
        · rename_i s2 rest2 htick
          obtain ⟨hsp2, hle, -, -⟩ := tick_speed hsp htick
          refine catchUpIter_invariant n _ s1 rest2 rest ?_ ?_ h
          · exact speedInv_congr_render hsp2
          · refine ⟨_, rfl, ?_⟩
            have : (s2.config.currentSpeed : ℚ) ≤ (s.config.currentSpeed : ℚ) := by
              exact_mod_cast hle
            linarith
      · simp at h

/-- When the catch-up loop exits, it has done some number of iterations, the invariant
holds and the loop test fails: the accumulator is below the current interval. -/
theorem catchUp_exit :
    ∀ (fuel : Nat) (s s1 : GameState) (draws rest : List Rand), SpeedInv s → AccNonneg s →
      catchUp fuel s draws = some (s1, rest) →
      (∃ n, n ≤ fuel ∧ catchUpIter n s draws = some (s1, rest)) ∧
        ∃ a, s1.config.render.accumulator = some a ∧ 0 ≤ a ∧ a < (s1.config.currentSpeed : ℚ) := by
  intro fuel
  induction fuel with
  | zero =>
    intro s s1 draws rest hsp hacc h
    obtain ⟨a, ha, ha0⟩ := hacc
    unfold catchUp at h
    rw [ha] at h
    simp only [] at h
    split at h
    · simp at h
    · rename_i htest
      simp only [Option.some.injEq, Prod.mk.injEq] at h
      obtain ⟨rfl, rfl⟩ := h
      exact ⟨⟨0, le_refl _, rfl⟩, a, ha, ha0, lt_of_not_ge htest⟩
  | succ k ih =>
    intro s s1 draws rest hsp hacc h
    obtain ⟨a, ha, ha0⟩ := hacc
    unfold catchUp at h
    rw [ha] at h
    simp only [] at h
    split at h
    · rename_i htest
      split at h
      · simp at h
      · rename_i s2 rest2 htick
        obtain ⟨hsp2, hle, -, -⟩ := tick_speed hsp htick
        have hle' : (s2.config.currentSpeed : ℚ) ≤ (s.config.currentSpeed : ℚ) := by
          exact_mod_cast hle
        obtain ⟨⟨n, hn, hiter⟩, hres⟩ := ih _ s1 rest2 rest (speedInv_congr_render hsp2)
          ⟨_, rfl, by linarith⟩ h
        refine ⟨⟨n + 1, Nat.succ_le_succ hn, ?_⟩, hres⟩
        rw [catchUpIter, ha]
        simp only [htest, if_true, htick]
        exact hiter
    · rename_i htest
      simp only [Option.some.injEq, Prod.mk.injEq] at h
      obtain ⟨rfl, rfl⟩ := h
      exact ⟨⟨0, Nat.zero_le _, rfl⟩, a, ha, ha0, lt_of_not_ge htest⟩

/-- With more than `acc / 30` iterations allowed, the loop fails to return only when a
tick does not return (its food placement ran out of draws). -/
theorem catchUp_terminates :
    ∀ (fuel : Nat) (s : GameState) (draws : List Rand) (a : ℚ), SpeedInv s →
      s.config.render.accumulator = some a → a < 30 * (fuel : ℚ) →
      catchUp fuel s draws = none →
      ∃ n s1 rest1, catchUpIter n s draws = some (s1, rest1) ∧
        gameUpdateLogic s1 rest1 = none := by
  intro fuel
  induction fuel with
  | zero =>
    intro s draws a hsp ha hlt h
    have h30 : (30 : ℚ) ≤ (s.config.currentSpeed : ℚ) := by
      exact_mod_cast le_trans (le_max_left _ _) hsp
    unfold catchUp at h
    rw [ha] at h
    simp only [] at h
    split at h
    · rename_i htest
      simp at hlt
      linarith
    · simp at h
  | succ k ih =>
    intro s draws a hsp ha hlt h
    unfold catchUp at h
    rw [ha] at h
    simp only [] at h
    split at h
    · rename_i htest
      split at h
      · rename_i htick
        exact ⟨0, s, draws, rfl, htick⟩
      · rename_i s2 rest2 htick
        obtain ⟨hsp2, -, h30, -⟩ := tick_speed hsp htick
        have h30' : (30 : ℚ) ≤ (s2.config.currentSpeed : ℚ) := by exact_mod_cast h30
        obtain ⟨n, s3, rest3, hiter, hnone⟩ := ih _ rest2 (a - (s2.config.currentSpeed : ℚ))
          (speedInv_congr_render hsp2) rfl (by push_cast at hlt; linarith) h
        refine ⟨n + 1, s3, rest3, ?_, hnone⟩
        rw [catchUpIter, ha]
        simp only [htest, if_true, htick]
        exact hiter
    · simp at h

/-- With the game started and not paused, `render` feeds the accumulator and runs the
catch-up loop. -/
theorem render_eq_catchUp (fuel : Nat) (s : GameState) (timestamp : ℚ) (draws : List Rand)
    (hstart : s.config.gameStarted = true) (hpause : s.config.isPaused = false) :
    render fuel s timestamp draws = catchUp fuel (feedAccumulator s timestamp) draws := by
  unfold render feedAccumulator
  simp [hstart, hpause]

/-- The level of a reachable state is at least 1. -/
theorem level_pos_reachable (s : GameState) (hs : Reachable s) : 1 ≤ s.config.level := by
  refine reachable_invariant (fun s => 1 ≤ s.config.level) ?_ ?_ ?_ ?_ ?_ ?_ ?_ ?_ ?_ s hs
  · intro draws s h
    unfold init at h
    split at h
    · simp at h
    · simp at h; subst h; simp [loadState]
  · intro s draws s1 rest hl h
    obtain ⟨head, -, hcase⟩ := gameUpdateLogic_elim h
    rcases hcase with ⟨-, -, hs⟩ | ⟨-, -, -, hs⟩ | ⟨-, -, -, -, hs⟩ | ⟨-, -, -, food, -, hs⟩
    · rcases hs with ⟨-, rfl⟩ | ⟨-, rfl⟩ <;> simpa using hl
    · rcases hs with ⟨-, rfl⟩ | ⟨-, rfl⟩ <;> simpa using hl
    · subst hs
      simpa [dropTail, growHead] using hl
    · subst hs
      unfold levelProgression
      simp only []
      split
      · rename_i hgt
        simp only [addScore, growHead, endTailGrace_config, endWallGrace_config,
          applyQueuedInput_config] at hgt ⊢
        omega
      · simpa [addScore, growHead] using hl
  · intro s r n h
    exact h
  · intro s key h
    unfold handleKeyPress
    simp only []
    repeat' split
    all_goals exact h
  · intro s id s1 h hf
    obtain ⟨-, -, -, -, -, -, hl⟩ := fireTimer_frame hf
    simp only [hl]
    exact h
  · intro s h
    exact h
  · intro s draws s1 rest _ h
    unfold restartGame at h
    split at h
    · simp only [] at h
      split at h
      · simp at h
      · simp at h
        rw [← h.1]
    · simp at h
  · intro s draws s1 rest _ h
    unfold returnToStart at h
    split at h
    · simp only [] at h
      split at h
      · simp at h
      · simp at h
        rw [← h.1]
    · simp at h
  · intro s d h
    exact h

/-- The function `startGame` establishes `SpeedInv` when the level is not negative. -/
theorem speedInv_startGame (s : GameState) (hl : 0 ≤ s.config.level) :
    SpeedInv (startGame s) := by
  unfold SpeedInv speedFloor startGame
  simp only []
  have hinc := speedIncrease_nonneg s.config.selectedDifficulty
  have hmul := Int.mul_nonneg hl hinc
  have h30 : 30 ≤ (DIFFICULTY s.config.selectedDifficulty).startSpeed := by
    cases s.config.selectedDifficulty <;> decide
  exact max_le h30 (by omega)

/-- The function `restartGame` establishes `SpeedInv`. -/
theorem speedInv_restartGame {s s1 : GameState} {draws rest : List Rand}
    (h : restartGame s draws = some (s1, rest)) : SpeedInv s1 := by
  unfold restartGame at h
  split at h
  · simp only [] at h
    split at h
    · simp at h
    · simp at h
      rw [← h.1]
      unfold SpeedInv speedFloor
      simp only []
      cases s.config.selectedDifficulty <;> decide
  · simp at h

/-- Every event but a change of difficulty or a return to the start screen keeps
`SpeedInv` in a reachable state. -/
theorem speedInv_step (fuel : Nat) (s s1 : GameState) (e : Event) (hs : Reachable s)
    (hinv : SpeedInv s) (hdiff : ∀ d, e ≠ .selectDifficulty d)
    (hret : ∀ draws, e ≠ .returnToStart draws) (h : step fuel s e = some s1) :
    SpeedInv s1 := by
  cases e with
  | frame timestamp draws =>
    simp only [step, Option.map_eq_some'] at h
    obtain ⟨⟨s2, rest⟩, h, rfl⟩ := h
    unfold render at h
    simp only [] at h
    split at h
    · exact catchUp_invariant SpeedInv (fun s draws s1 rest hi ht => (tick_speed hi ht).1)
        (fun s r n hi => hi) _ _ _ _ _ (speedInv_congr_render hinv) h
    · simp at h
      rw [← h.1]
      exact hinv
  | keyDown key =>
    simp only [step, Option.some.injEq] at h
    subst h
    unfold handleKeyPress
    simp only []
    repeat' split
    all_goals exact hinv
  | timer id =>
    simp only [step] at h
    unfold fireTimer at h
    split at h
    · simp at h
    · rename_i t _
      simp only [Option.some.injEq] at h
      subst h
      cases t.2 <;> simp only [timerCallback] <;> (try split) <;> exact hinv
  | startGame =>
    simp only [step, Option.some.injEq] at h
    subst h
    exact speedInv_startGame s (le_trans (by decide) (level_pos_reachable s hs))
  | restartGame draws =>
    simp only [step, Option.map_eq_some'] at h
    obtain ⟨⟨s2, rest⟩, h, rfl⟩ := h
    exact speedInv_restartGame h
  | returnToStart draws => exact absurd rfl (hret draws)
  | selectDifficulty d => exact absurd rfl (hdiff d)

/-- The frame delta is never negative when timestamps do not decrease. -/
theorem frameDelta_nonneg (s : GameState) (timestamp : ℚ)
    (hmono : s.config.render.lastTime ≤ timestamp) : 0 ≤ frameDelta s timestamp := by
  unfold frameDelta
  simp only []
  split
  · simp
  · exact le_min (by norm_num) (by linarith)

/-- C9: in a render callback with the game started and not paused, timestamps not
decreasing, the difficulty unchanged during the run (`SpeedInv`) and an accumulator
that is not negative on entry (or still undefined, which line 432 turns into 0),
`render` adds the frame delta `min(50, timestamp - lastTime)`, with `lastTime` as line
426 reads it, and runs the catch-up loop; the accumulator is not negative after every
number of iterations of the loop; when the loop exits the accumulator is not negative
and strictly below the current tick interval, also when a tick of the loop has lowered
the interval; and with more than `accumulator / 30` iterations allowed the loop fails
to exit only when a tick does not return. -/
theorem accumulator_bounds (s : GameState) (timestamp : ℚ) (draws : List Rand)
    (hstart : s.config.gameStarted = true) (hpause : s.config.isPaused = false)
    (hmono : s.config.render.lastTime ≤ timestamp)
    (hacc : ∀ a, s.config.render.accumulator = some a → 0 ≤ a) (hspeed : SpeedInv s) :
    (∀ fuel, render fuel s timestamp draws
        = catchUp fuel (feedAccumulator s timestamp) draws) ∧
      ((feedAccumulator s timestamp).config.render.accumulator
          = some (s.config.render.accumulator.getD 0
              + min 50 (timestamp - lastTimeRead s timestamp)) ∧
        (s.config.render.lastTime ≠ 0 →
          lastTimeRead s timestamp = s.config.render.lastTime) ∧
        0 ≤ min 50 (timestamp - lastTimeRead s timestamp)) ∧
      (∀ n s1 rest, catchUpIter n (feedAccumulator s timestamp) draws = some (s1, rest) →
        ∃ a, s1.config.render.accumulator = some a ∧ 0 ≤ a) ∧
      (∀ fuel s1 rest, render fuel s timestamp draws = some (s1, rest) →
        (∃ n, n ≤ fuel ∧
          catchUpIter n (feedAccumulator s timestamp) draws = some (s1, rest)) ∧
        ∃ a, s1.config.render.accumulator = some a ∧ 0 ≤ a ∧
          a < (s1.config.currentSpeed : ℚ)) ∧
      (∀ (fuel : Nat) (a : ℚ), (feedAccumulator s timestamp).config.render.accumulator = some a →
        a < 30 * (fuel : ℚ) → render fuel s timestamp draws = none →
        ∃ n s1 rest1, catchUpIter n (feedAccumulator s timestamp) draws = some (s1, rest1) ∧
          gameUpdateLogic s1 rest1 = none) := by
  have hdt := frameDelta_nonneg s timestamp hmono
  have hfeedAcc : AccNonneg (feedAccumulator s timestamp) := by
    unfold AccNonneg feedAccumulator
    refine ⟨_, rfl, ?_⟩
    cases ha : s.config.render.accumulator with
    | none => simpa using hdt
    | some a =>
      have := hacc a ha
      simp only []
      linarith
  have hfeedSp : SpeedInv (feedAccumulator s timestamp) := hspeed
  refine ⟨fun fuel => render_eq_catchUp fuel s timestamp draws hstart hpause, ⟨?_, ?_, hdt⟩,
    ?_, ?_, ?_⟩
  · unfold feedAccumulator frameDelta lastTimeRead
    cases s.config.render.accumulator <;> rfl
  · intro h0
    unfold lastTimeRead
    rw [if_neg h0]
  · intro n s1 rest h
    exact (catchUpIter_invariant n _ s1 draws rest hfeedSp hfeedAcc h).2
  · intro fuel s1 rest h
    rw [render_eq_catchUp fuel s timestamp draws hstart hpause] at h
    exact catchUp_exit fuel _ s1 draws rest hfeedSp hfeedAcc h
  · intro fuel a ha hlt h
    rw [render_eq_catchUp fuel s timestamp draws hstart hpause] at h
    exact catchUp_terminates fuel _ draws a hfeedSp ha hlt h

/-- C9 on a frame whose loop runs one tick with a level-up.  In `levelUpFrameState`
(medium, score 30, level 1, interval 120, accumulator 100, `lastTime` 1460, food in
front of the head) the frame at 1480 adds `min(50, 20) = 20`; the loop test passes
against the interval 120, the tick eats, reaches level 2 and lowers the interval to
110, the loop subtracts 110, and the frame returns with the accumulator at 10. -/
theorem accumulator_bounds_witness :
    levelUpFrameState.config.currentSpeed = 120 ∧
      levelUpFrameState.config.render.accumulator = some 100 ∧
      (feedAccumulator levelUpFrameState 1480).config.render.accumulator = some 120 ∧
      ∃ s1 rest, render 1 levelUpFrameState 1480 eatDraws = some (s1, rest) ∧
        s1.logicTicks = levelUpFrameState.logicTicks + 1 ∧
        s1.config.level = 2 ∧ s1.config.currentSpeed = 110 ∧
        s1.config.render.accumulator = some 10 ∧
        ∃ a, s1.config.render.accumulator = some a ∧ 0 ≤ a ∧
          a < (s1.config.currentSpeed : ℚ) := by
  refine ⟨by decide!, by decide!, by decide!, ?_⟩
  obtain ⟨⟨s1, rest⟩, h⟩ := Option.isSome_iff_exists.mp
    (show (render 1 levelUpFrameState 1480 eatDraws).isSome = true by decide!)
  have hw := accumulator_bounds levelUpFrameState 1480 eatDraws (by decide!) (by decide!)
    (by decide!)
    (by
      intro a ha
      have h0 : levelUpFrameState.config.render.accumulator = some 100 := by decide!
      rw [h0] at ha
      cases ha
      norm_num)
    (by unfold SpeedInv speedFloor; decide!)
  have hval : (render 1 levelUpFrameState 1480 eatDraws).map
      (fun r => (r.1.logicTicks, r.1.config.level, r.1.config.currentSpeed,
        r.1.config.render.accumulator))
      = some (levelUpFrameState.logicTicks + 1, 2, 110, some 10) := by decide!
  rw [h] at hval
  simp only [Option.map_some', Option.some.injEq, Prod.mk.injEq] at hval
  exact ⟨s1, rest, h, hval.1, hval.2.1, hval.2.2.1, hval.2.2.2, (hw.2.2.2.1 1 s1 rest h).2⟩

/-! ## C10: level progression -/

theorem levelOneState_runs : run 1 grownLoaded levelTrace = some levelOneState := by
  decide!

theorem levelTwoState_runs : run 1 grownLoaded levelTwoTrace = some levelTwoState := by
  decide!

theorem levelTwoState_reachable : Reachable levelTwoState :=
  reachable_run 1 _ grownLoaded levelTwoState grownLoaded_reachable levelTwoState_runs

/-- What lines 330-343 leave in a tick that eats with a level-up. -/
theorem levelProgression_levelUp (s : GameState)
    (h : s.config.score / (DIFFICULTY s.config.selectedDifficulty).levelThreshold + 1
      > s.config.level) :
    (levelProgression s).config.level
        = s.config.score / (DIFFICULTY s.config.selectedDifficulty).levelThreshold + 1 ∧
      (levelProgression s).config.currentSpeed
        = max 30 (s.config.baseSpeed
          - (s.config.score / (DIFFICULTY s.config.selectedDifficulty).levelThreshold + 1)
            * (DIFFICULTY s.config.selectedDifficulty).speedIncrease) := by
  unfold levelProgression
  simp only []
  rw [if_pos h]
  exact ⟨rfl, rfl⟩

/-- C10 as stated fails at the second level-up.  After `levelTwoTrace` (medium, score
70, level 2, interval 110) the tick that eats the food on `(15, 7)` recomputes level 3
and sets the interval to `max(30, 120 - 3 * 5) = 105`, counted from the start interval
120, not `max(30, 110 - 3 * 5) = 95`, counted from the interval before the tick. -/
theorem level_up_speed_counterexample :
    ¬ (∀ (s s1 : GameState) (draws rest : List Rand), Reachable s → tickEats s = true →
      recomputedLevel s > s.config.level → gameUpdateLogic s draws = some (s1, rest) →
      s1.config.level = recomputedLevel s ∧
        s1.config.currentSpeed = max 30 (s.config.currentSpeed
          - recomputedLevel s * (DIFFICULTY s.config.selectedDifficulty).speedIncrease)) := by
  intro hall
  obtain ⟨⟨s1, rest⟩, h⟩ := Option.isSome_iff_exists.mp
    (show (gameUpdateLogic levelTwoState eatDraws).isSome = true by decide!)
  have hc := (hall levelTwoState s1 eatDraws rest levelTwoState_reachable (by decide!)
    (by decide!) h).2
  have hval : (gameUpdateLogic levelTwoState eatDraws).map
      (fun r => (r.1.config.level, r.1.config.currentSpeed)) = some (3, 105) := by decide!
  rw [h] at hval
  simp only [Option.map_some', Option.some.injEq, Prod.mk.injEq] at hval
  rw [hval.2] at hc
  revert hc
  decide!

/-- C10 amended: in a tick that eats and whose recomputed level
`floor(score / levelThreshold) + 1` (score already raised by 10) exceeds the current
level, the level becomes that value and the interval becomes
`max(30, baseSpeed - new level * speedIncrease)`, where `baseSpeed` is the start
interval stored by `startGame` / `restartGame`; this is
`max(30, interval before the tick - new level * speedIncrease)` whenever the interval
before the tick is still `baseSpeed` (the first level-up of a run); on medium with
`baseSpeed` 120 the tick that brings the score to 40 gives level 2 and interval 110. -/
theorem level_up_speed (s s1 : GameState) (draws rest : List Rand)
    (he : tickEats s = true) (hl : recomputedLevel s > s.config.level)
    (h : gameUpdateLogic s draws = some (s1, rest)) :
    s1.config.score = s.config.score + 10 ∧
      s1.config.level = recomputedLevel s ∧
      s1.config.currentSpeed = max 30 (s.config.baseSpeed
        - recomputedLevel s * (DIFFICULTY s.config.selectedDifficulty).speedIncrease) ∧
      (s.config.currentSpeed = s.config.baseSpeed →
        s1.config.currentSpeed = max 30 (s.config.currentSpeed
          - recomputedLevel s * (DIFFICULTY s.config.selectedDifficulty).speedIncrease)) ∧
      (s.config.selectedDifficulty = .medium → s.config.baseSpeed = 120 →
        s.config.score = 30 → s1.config.score = 40 ∧ s1.config.level = 2 ∧
          s1.config.currentSpeed = 110) := by
  obtain ⟨head, hh, hcase⟩ := gameUpdateLogic_elim h
  unfold tickEats at he
  simp only [hh, applyQueuedInput_body, applyQueuedInput_food, Bool.and_eq_true,
    Bool.not_eq_true'] at he
  obtain ⟨⟨ho, hc⟩, hf⟩ := he
  rcases hcase with ⟨ho1, -⟩ | ⟨-, hc1, -⟩ | ⟨-, -, hf1, -⟩ | ⟨-, -, -, food, -, hs⟩
  · rw [ho] at ho1; exact absurd ho1 (by decide)
  · rw [hc] at hc1; exact absurd hc1 (by decide)
  · rw [hf] at hf1; exact absurd hf1 (by decide)
  · have hlp := levelProgression_levelUp
      { addScore (growHead (endTailGrace (endWallGrace (applyQueuedInput s))) head) with
        food := food }
      (by simpa [addScore, growHead, recomputedLevel] using hl)
    rw [← hs] at hlp
    simp only [addScore, growHead, endTailGrace_config, endWallGrace_config,
      applyQueuedInput_config] at hlp
    have hscore : s1.config.score = s.config.score + 10 := by
      rw [hs]
      simp [addScore, growHead]
    have hlevel : s1.config.level = recomputedLevel s := hlp.1
    have hspeed : s1.config.currentSpeed = max 30 (s.config.baseSpeed
        - recomputedLevel s * (DIFFICULTY s.config.selectedDifficulty).speedIncrease) := hlp.2
    refine ⟨hscore, hlevel, hspeed, ?_, ?_⟩
    · intro hbase
      rw [hspeed, hbase]
    · intro hmed hb hsc
      rw [hscore, hlevel, hspeed]
      unfold recomputedLevel
      rw [hmed, hb, hsc]
      decide

/-- C10 amended on the medium scenario: after `levelTrace` (score 30, level 1, interval
120) the tick that eats the food on `(15, 11)` brings the score to 40, the level to 2
and the interval to 110. -/
theorem level_up_speed_witness :
    levelOneState.config.score = 30 ∧ levelOneState.config.level = 1 ∧
      levelOneState.config.currentSpeed = 120 ∧
      ∃ s1 rest, gameUpdateLogic levelOneState eatDraws = some (s1, rest) ∧
        s1.config.score = 40 ∧ s1.config.level = 2 ∧ s1.config.currentSpeed = 110 := by
  refine ⟨by decide!, by decide!, by decide!, ?_⟩
  obtain ⟨⟨s1, rest⟩, h⟩ := Option.isSome_iff_exists.mp
    (show (gameUpdateLogic levelOneState eatDraws).isSome = true by decide!)
  exact ⟨s1, rest, h,
    (level_up_speed levelOneState s1 eatDraws rest (by decide!) (by decide!) h).2.2.2.2
      (by decide!) (by decide!) (by decide!)⟩

/-! ## C11: the corner scenario -/

theorem cornerState_runs : run 1 loadedState cornerTrace = some cornerState := by
  decide!

theorem cornerState_reachable : Reachable cornerState :=
  reachable_run 1 _ loadedState cornerState loadedState_reachable cornerState_runs

theorem cornerState_values :
    cornerState.snake.body = [{ x := 0, y := 0 }] ∧
      cornerState.snake.direction = { x := -1, y := 0 } ∧
      cornerState.snake.nextDirection = { x := -1, y := 0 } ∧
      cornerState.inputQueue = [] ∧ cornerState.snake.wallGraceActive = false ∧
      cornerState.snake.tailGraceActive = false ∧ cornerState.config.gameStarted = true := by
  refine ⟨by decide!, by decide!, by decide!, by decide!, by decide!, by decide!, by decide!⟩

/-- With an empty queue line 271 only commits `nextDirection`. -/
theorem applyQueuedInput_empty (s : GameState) (hq : s.inputQueue = []) :
    applyQueuedInput s
      = { s with snake := { s.snake with direction := s.snake.nextDirection } } := by
  unfold applyQueuedInput
  rw [hq]
  simp only []
  rw [hq]

/-- The first tick of the corner scenario: one step left from `(0, 0)` leaves the grid
and starts the wall grace period. -/
theorem corner_first_tick (s : GameState) (tl : List Vec) (draws : List Rand)
    (hbody : s.snake.body = { x := 0, y := 0 } :: tl)
    (hnext : s.snake.nextDirection = { x := -1, y := 0 })
    (hq : s.inputQueue = []) (hw : s.snake.wallGraceActive = false) :
    nextHead (applyQueuedInput s) = some { x := -1, y := 0 } ∧
      gameUpdateLogic s draws = some (startWallGrace (applyQueuedInput s), draws) := by
  have hh : nextHead (applyQueuedInput s) = some { x := -1, y := 0 } := by
    rw [applyQueuedInput_empty s hq]
    simp [nextHead, hbody, hnext]
  refine ⟨hh, ?_⟩
  unfold gameUpdateLogic
  simp only [hh]
  have ho : outOfBounds { x := -1, y := 0 } = true := by decide
  simp [ho, (applyQueuedInput_wallGrace s).1, hw]

/-- A pending wall grace period and a head that is still out of the grid: the tick
returns early and changes nothing but the committed direction. -/
theorem corner_stuck_tick (s : GameState) (tl : List Vec) (draws : List Rand)
    (hbody : s.snake.body = { x := 0, y := 0 } :: tl)
    (hnext : s.snake.nextDirection = { x := -1, y := 0 })
    (hq : s.inputQueue = []) (hw : s.snake.wallGraceActive = true) :
    gameUpdateLogic s draws = some (applyQueuedInput s, draws) := by
  have hh : nextHead (applyQueuedInput s) = some { x := -1, y := 0 } := by
    rw [applyQueuedInput_empty s hq]
    simp [nextHead, hbody, hnext]
  unfold gameUpdateLogic
  simp only [hh]
  have ho : outOfBounds { x := -1, y := 0 } = true := by decide
  simp [ho, (applyQueuedInput_wallGrace s).1, hw]

/-- The key `right` is the reverse of the direction `(-1, 0)`: line 682 rejects it. -/
theorem handleKeyPress_right_rejected (s : GameState)
    (hdir : s.snake.direction = { x := -1, y := 0 }) : handleKeyPress s .right = s := by
  unfold handleKeyPress
  simp only []
  split
  · rfl
  · have : isOpposite { x := 1, y := 0 } s.snake.direction = true := by rw [hdir]; decide
    simp [desiredDirection, this]

/-- The key `down` is queued when the snake heads left on `(0, 0)` with an empty
queue. -/
theorem handleKeyPress_down_queued (s : GameState) (tl : List Vec)
    (hstart : s.config.gameStarted = true)
    (hbody : s.snake.body = { x := 0, y := 0 } :: tl)
    (hdir : s.snake.direction = { x := -1, y := 0 })
    (hnext : s.snake.nextDirection = { x := -1, y := 0 }) (hq : s.inputQueue = []) :
    handleKeyPress s .down = { s with inputQueue := [{ x := 0, y := 1 }] } := by
  have hmax : maxQueue s = 4 := by
    unfold maxQueue nearWall
    rw [hbody]
    simp
  unfold handleKeyPress
  simp only []
  have h1 : isOpposite { x := 0, y := 1 } s.snake.direction = false := by rw [hdir]; decide
  have h2 : isOpposite { x := 0, y := 1 } { x := -1, y := 0 } = false := by decide
  simp [hstart, desiredDirection, h1, h2, hq, hnext, hmax]

/-- C11 amended: from a started state with the head on `(0, 0)`, direction and
`nextDirection` `(-1, 0)`, an empty queue and no wall grace pending, one tick computes
the head `(-1, 0)`, enters wall grace (timer handle `nextTimerId`) and leaves the body
unchanged.  The direction input `(1, 0)` is then rejected by `handleKeyPress` as the
reverse of the current direction, and the next tick stays in wall grace with the body
unchanged and the timer pending.  The direction input `(0, 1)` is queued, and when the
cell `(0, 1)` is on no body segment the next tick leaves wall grace, cancels the timer
for good, moves the head to `(0, 1)` over the untouched body, calls no `gameOver` and
leaves the game started. -/
theorem corner_wall_grace (s : GameState) (tl : List Vec)
    (hstart : s.config.gameStarted = true)
    (hbody : s.snake.body = { x := 0, y := 0 } :: tl)
    (_hdir : s.snake.direction = { x := -1, y := 0 })
    (hnext : s.snake.nextDirection = { x := -1, y := 0 })
    (hq : s.inputQueue = []) (hw : s.snake.wallGraceActive = false)
    (_ht : s.snake.tailGraceActive = false) :
    ∃ s1 : GameState,
      (∀ draws, gameUpdateLogic s draws = some (s1, draws)) ∧
      nextHead (applyQueuedInput s) = some { x := -1, y := 0 } ∧
      s1.snake.wallGraceActive = true ∧ s1.snake.body = s.snake.body ∧
      s1.snake.wallGraceTimeout = some s.nextTimerId ∧
      (s.nextTimerId, TimerKind.wallGrace) ∈ s1.timers ∧
      handleKeyPress s1 .right = s1 ∧
      (∀ draws, ∃ s2, gameUpdateLogic (handleKeyPress s1 .right) draws = some (s2, draws) ∧
        s2.snake.wallGraceActive = true ∧ s2.snake.body = s.snake.body ∧
        (s.nextTimerId, TimerKind.wallGrace) ∈ s2.timers) ∧
      (handleKeyPress s1 .down).inputQueue = [{ x := 0, y := 1 }] ∧
      (checkSelfCollision tl { x := 0, y := 1 } = false →
        (∀ draws, tickEats (handleKeyPress s1 .down) = false →
          ∃ s2, gameUpdateLogic (handleKeyPress s1 .down) draws = some (s2, draws)) ∧
        ∀ draws s2 rest, gameUpdateLogic (handleKeyPress s1 .down) draws = some (s2, rest) →
          s2.snake.wallGraceActive = false ∧ s2.snake.tailGraceActive = false ∧
          (∀ kind, (s.nextTimerId, kind) ∉ s2.timers) ∧
          (s2.snake.body = { x := 0, y := 1 } :: s.snake.body ∨
            s2.snake.body = ({ x := 0, y := 1 } :: s.snake.body).dropLast) ∧
          s2.config.gameStarted = true ∧ s2.gameOverCalls = s.gameOverCalls ∧
          ∀ fuel es t, run fuel s2 es = some t → fireTimer t s.nextTimerId = none) := by
  have hs1 : startWallGrace (applyQueuedInput s)
      = { s with
          snake := { s.snake with
            direction := { x := -1, y := 0 }, wallGraceActive := true
            wallGraceTimeout := some s.nextTimerId }
          timers := s.timers ++ [(s.nextTimerId, TimerKind.wallGrace)]
          nextTimerId := s.nextTimerId + 1 } := by
    rw [applyQueuedInput_empty s hq, hnext]
    rfl
  obtain ⟨hh1, htick1⟩ := corner_first_tick s tl [] hbody hnext hq hw
  refine ⟨startWallGrace (applyQueuedInput s),
    fun draws => (corner_first_tick s tl draws hbody hnext hq hw).2, hh1, ?_⟩
  rw [hs1]
  have hdown := handleKeyPress_down_queued
    { s with
      snake := { s.snake with
        direction := { x := -1, y := 0 }, wallGraceActive := true
        wallGraceTimeout := some s.nextTimerId }
      timers := s.timers ++ [(s.nextTimerId, TimerKind.wallGrace)]
      nextTimerId := s.nextTimerId + 1 } tl hstart hbody rfl hnext hq
  refine ⟨rfl, rfl, rfl, by simp, handleKeyPress_right_rejected _ rfl, ?_, ?_, ?_⟩
  · intro draws
    rw [handleKeyPress_right_rejected _ rfl]
    refine ⟨_, corner_stuck_tick _ tl draws hbody hnext hq rfl, ?_, ?_, ?_⟩
    · simp [(applyQueuedInput_wallGrace _).1]
    · simp
    · simp
  · rw [hdown]
  · intro hfree
    rw [hdown]
    have hcol : checkSelfCollision s.snake.body { x := 0, y := 1 } = false := by
      rw [hbody]
      unfold checkSelfCollision at hfree ⊢
      rw [List.any_cons, hfree]
      decide
    constructor
    · intro draws he
      exact tick_returns_of_not_eats _ draws (by simp [hbody]) he
    · intro draws s2 rest h
      have hh2 : nextHead (applyQueuedInput
          { s with
            snake := { s.snake with
              direction := { x := -1, y := 0 }, wallGraceActive := true
              wallGraceTimeout := some s.nextTimerId }
            timers := s.timers ++ [(s.nextTimerId, TimerKind.wallGrace)]
            nextTimerId := s.nextTimerId + 1
            inputQueue := [{ x := 0, y := 1 }] }) = some { x := 0, y := 1 } := by
        simp [applyQueuedInput, nextHead, hbody, isOpposite]
      have ho : outOfBounds { x := 0, y := 1 } = false := by decide
      obtain ⟨hflag, hc⟩ := @wall_recovery _ _ _ _ s.nextTimerId _ rfl rfl
        (Nat.lt_succ_self _) hh2 ho h
      obtain ⟨hg, hst, -⟩ := tick_keeps_run h
      obtain ⟨head, hh3, hcase⟩ := gameUpdateLogic_elim h
      rw [hh2] at hh3
      cases hh3
      have hbt : s2.snake.tailGraceActive = false ∧
          (s2.snake.body = { x := 0, y := 1 } :: s.snake.body ∨
            s2.snake.body = ({ x := 0, y := 1 } :: s.snake.body).dropLast) := by
        rcases hcase with ⟨ho1, -⟩ | ⟨-, hc1, -⟩ | ⟨-, -, -, -, hs⟩ | ⟨-, -, -, food, -, hs⟩
        · rw [ho] at ho1; exact absurd ho1 (by decide)
        · rw [show checkSelfCollision s.snake.body { x := 0, y := 1 } = false from hcol] at hc1
          exact absurd hc1 (by decide)
        · subst hs
          exact ⟨by simp [dropTail, growHead], Or.inr (by simp [dropTail, growHead])⟩
        · subst hs
          exact ⟨by simp [addScore, growHead], Or.inl (by simp [addScore, growHead])⟩
      exact ⟨hflag, hbt.1, hc.2, hbt.2, hst.trans hstart, hg, fun fuel es t hrun =>
        fireTimer_none_of_cancelled (cancelled_run fuel es s2 t hc hrun)⟩

/-- C11 as stated fails: in the reachable state `cornerState` (head on `(0, 0)`, heading
left) the first tick enters wall grace, the direction input `(1, 0)` is rejected by
line 682 as a reversal, and the next tick is still in wall grace; when the wall timer
then fires the run ends. -/
theorem corner_reversal_counterexample :
    ¬ (∀ (s s1 s2 : GameState) (tl : List Vec) (d1 r1 d2 r2 : List Rand), Reachable s →
        s.config.gameStarted = true → s.snake.body = { x := 0, y := 0 } :: tl →
        s.snake.direction = { x := -1, y := 0 } →
        s.snake.nextDirection = { x := -1, y := 0 } → s.inputQueue = [] →
        s.snake.wallGraceActive = false → s.snake.tailGraceActive = false →
        gameUpdateLogic s d1 = some (s1, r1) →
        gameUpdateLogic (handleKeyPress s1 .right) d2 = some (s2, r2) →
        s2.snake.wallGraceActive = false) ∧
      (run 1 loadedState
          (cornerTrace ++ ticksFrom 4600 1 ++ [.keyDown .right] ++ ticksFrom 4720 1)).map
          (fun s => (s.snake.body, s.snake.wallGraceActive, s.inputQueue, s.gameOverCalls))
        = some ([{ x := 0, y := 0 }], true, [], 0) ∧
      (run 1 loadedState
          (cornerTrace ++ ticksFrom 4600 1 ++ [.keyDown .right] ++ ticksFrom 4720 1
            ++ [.timer 0])).map
          (fun s => (s.config.gameStarted, s.gameOverCalls))
        = some (false, 1) := by
  refine ⟨?_, by decide!, by decide!⟩
  intro hall
  obtain ⟨hb, hd, hn, hq, hw, ht, hst⟩ := cornerState_values
  have h1 := (corner_first_tick cornerState [] [] hb hn hq hw).2
  have hrej : handleKeyPress (startWallGrace (applyQueuedInput cornerState)) .right
      = startWallGrace (applyQueuedInput cornerState) :=
    handleKeyPress_right_rejected _ (by decide!)
  have h2 := corner_stuck_tick (startWallGrace (applyQueuedInput cornerState)) [] []
    (by decide!) (by decide!) (by decide!) (by decide!)
  rw [← hrej] at h2
  have hfalse := hall cornerState _ _ [] [] [] [] [] cornerState_reachable hst hb hd hn hq hw
    ht h1 h2
  revert hfalse
  decide!

/-- C11 amended on the reachable state `cornerState`: the first tick enters wall grace
with timer 0 and the body still `(0, 0)`; the key `right` changes nothing; the key
`down` and the next tick bring the head to `(0, 1)`, clear the flag and leave no
timer. -/
theorem corner_wall_grace_witness :
    ∃ s1 s2, gameUpdateLogic cornerState [] = some (s1, []) ∧
      s1.snake.wallGraceActive = true ∧ s1.snake.body = [{ x := 0, y := 0 }] ∧
      handleKeyPress s1 .right = s1 ∧
      gameUpdateLogic (handleKeyPress s1 .down) [] = some (s2, []) ∧
      s2.snake.wallGraceActive = false ∧ s2.snake.body = [{ x := 0, y := 1 }] ∧
      s2.timers = [] ∧ s2.config.gameStarted = true := by
  obtain ⟨hb, hd, hn, hq, hw, ht, hst⟩ := cornerState_values
  obtain ⟨s1, htick, -, hflag, hbody, -, -, hrej, -, -, hrec⟩ :=
    corner_wall_grace cornerState [] hst hb hd hn hq hw ht
  have hs1 : s1 = startWallGrace (applyQueuedInput cornerState) := by
    have h1 := (corner_first_tick cornerState [] [] hb hn hq hw).2
    rw [htick []] at h1
    simpa using h1
  obtain ⟨hret, hprop⟩ := hrec (by decide)
  obtain ⟨s2, h2⟩ := hret [] (by rw [hs1]; decide!)
  obtain ⟨hf2, -, -, -, hst2, -, -⟩ := hprop [] s2 [] h2
  have hval : (gameUpdateLogic
      (handleKeyPress (startWallGrace (applyQueuedInput cornerState)) .down) []).map
      (fun r => (r.1.snake.body, r.1.timers)) = some ([{ x := 0, y := 1 }], []) := by decide!
  rw [← hs1, h2] at hval
  simp only [Option.map_some', Option.some.injEq, Prod.mk.injEq] at hval
  exact ⟨s1, s2, htick [], hflag, hbody.trans hb, hrej, h2, hf2, hval.1, hval.2, hst2⟩

/-! ## C12: the body stays inside the grid and never overlaps itself -/

theorem inGrid_of_not_outOfBounds {head : Vec} (h : outOfBounds head = false) :
    inGrid head := by
  unfold outOfBounds at h
  simp only [Bool.or_eq_false_iff, decide_eq_false_iff_not, not_lt, ge_iff_le, not_le] at h
  obtain ⟨⟨⟨h1, h2⟩, h3⟩, h4⟩ := h
  exact ⟨⟨h1, h2⟩, h3, h4⟩

/-- The function `checkSelfCollision` answers false exactly when the head differs from
every segment of the body, the last one included. -/
theorem checkSelfCollision_eq_false_iff (body : List Vec) (head : Vec) :
    checkSelfCollision body head = false ↔ ∀ seg ∈ body, seg ≠ head := by
  unfold checkSelfCollision
  rw [List.any_eq_false]
  constructor
  · intro h seg hseg heq
    exact h seg hseg ((sameCell_iff _ _).mpr heq.symm)
  · intro h seg hseg hsame
    exact h seg hseg ((sameCell_iff _ _).mp hsame).symm

theorem startCell_inGrid (rx ry : Rand) : inGrid (startCell rx ry) := by
  have hx := randFloor_bounds rx (tileCountX - 8 * 2) (by decide)
  have hy := randFloor_bounds ry (tileCountY - 8 * 2) (by decide)
  unfold inGrid startCell
  simp only [tileCountX, tileCountY] at hx hy ⊢
  omega

/-- The body of a tick's outcome: untouched, or the checked head prepended, with or
without the last segment dropped. -/
theorem tick_body {s s1 : GameState} {draws rest : List Rand}
    (h : gameUpdateLogic s draws = some (s1, rest)) :
    ∃ head, nextHead (applyQueuedInput s) = some head ∧
      (s1.snake.body = s.snake.body ∨
        (outOfBounds head = false ∧ checkSelfCollision s.snake.body head = false ∧
          (s1.snake.body = head :: s.snake.body ∨
            s1.snake.body = (head :: s.snake.body).dropLast))) := by
  obtain ⟨head, hh, hcase⟩ := gameUpdateLogic_elim h
  refine ⟨head, hh, ?_⟩
  rcases hcase with ⟨-, -, hs⟩ | ⟨-, -, -, hs⟩ | ⟨ho, hc, -, -, hs⟩ | ⟨ho, hc, -, food, -, hs⟩
  · rcases hs with ⟨-, rfl⟩ | ⟨-, rfl⟩ <;> exact Or.inl (by simp)
  · rcases hs with ⟨-, rfl⟩ | ⟨-, rfl⟩ <;> exact Or.inl (by simp)
  · subst hs
    exact Or.inr ⟨ho, hc, Or.inr (by simp [dropTail, growHead])⟩
  · subst hs
    exact Or.inr ⟨ho, hc, Or.inl (by simp [addScore, growHead])⟩

/-- The body invariant. -/
theorem bodyInv_reachable (s : GameState) (hs : Reachable s) :
    s.snake.body ≠ [] ∧ s.snake.body.Nodup ∧ ∀ c ∈ s.snake.body, inGrid c := by
  refine reachable_invariant
    (fun s => s.snake.body ≠ [] ∧ s.snake.body.Nodup ∧ ∀ c ∈ s.snake.body, inGrid c)
    ?_ ?_ ?_ ?_ ?_ ?_ ?_ ?_ ?_ s hs
  · intro draws s h
    unfold init at h
    split at h
    · simp at h
    · simp at h; subst h
      refine ⟨by simp [loadState], by simp [loadState], ?_⟩
      intro c hc
      simp [loadState] at hc
      subst hc
      unfold inGrid
      decide
  · intro s draws s1 rest ⟨hne, hnd, hg⟩ h
    obtain ⟨head, -, hb⟩ := tick_body h
    rcases hb with hb | ⟨ho, hc, hb⟩
    · rw [hb]; exact ⟨hne, hnd, hg⟩
    · have hfresh := (checkSelfCollision_eq_false_iff _ _).mp hc
      have hnd2 : (head :: s.snake.body).Nodup :=
        List.nodup_cons.mpr ⟨fun hmem => hfresh head hmem rfl, hnd⟩
      have hg2 : ∀ c ∈ head :: s.snake.body, inGrid c := by
        intro c hmem
        rcases List.mem_cons.mp hmem with rfl | hmem
        · exact inGrid_of_not_outOfBounds ho
        · exact hg c hmem
      rcases hb with hb | hb
      · rw [hb]; exact ⟨List.cons_ne_nil _ _, hnd2, hg2⟩
      · rw [hb]
        refine ⟨?_, hnd2.sublist (List.dropLast_sublist _), ?_⟩
        · intro hnil
          have hlen := congrArg List.length hnil
          simp at hlen
          exact hne hlen
        · intro c hmem
          exact hg2 c ((List.dropLast_sublist _).subset hmem)
  · intro s r n h
    exact h
  · intro s key h
    simpa using h
  · intro s id s1 h hf
    obtain ⟨hb, -⟩ := fireTimer_frame hf
    simp only [hb]
    exact h
  · intro s h
    exact h
  · intro s draws s1 rest _ h
    unfold restartGame at h
    split at h
    · rename_i rx ry tl
      simp only [] at h
      split at h
      · simp at h
      · simp at h
        rw [← h.1]
        refine ⟨by simp, by simp, ?_⟩
        intro c hc
        simp at hc
        subst hc
        exact startCell_inGrid rx ry
    · simp at h
  · intro s draws s1 rest _ h
    unfold returnToStart at h
    split at h
    · rename_i rx ry tl
      simp only [] at h
      split at h
      · simp at h
      · simp at h
        rw [← h.1]
        refine ⟨by simp, by simp, ?_⟩
        intro c hc
        simp at hc
        subst hc
        exact startCell_inGrid rx ry
    · simp at h
  · intro s d h
    exact h

/-- C12: in every reachable state (for all random draws, through any sequence of
frames, key presses, timer firings, starts and resets) the snake body is a non-empty
list of pairwise distinct cells that all lie inside the grid; and a tick changes the
body only by prepending a head that passed the bounds check and that
`checkSelfCollision` found different from every body segment, the tail included,
keeping or dropping the last segment. -/
theorem body_distinct_in_grid (s : GameState) (hs : Reachable s) :
    s.snake.body ≠ [] ∧ s.snake.body.Nodup ∧
      (∀ c ∈ s.snake.body, (0 ≤ c.x ∧ c.x < tileCountX) ∧ (0 ≤ c.y ∧ c.y < tileCountY)) ∧
      (∀ draws s1 rest, gameUpdateLogic s draws = some (s1, rest) →
        ∃ head, nextHead (applyQueuedInput s) = some head ∧
          (s1.snake.body = s.snake.body ∨
            (outOfBounds head = false ∧ (∀ seg ∈ s.snake.body, seg ≠ head) ∧
              (s1.snake.body = head :: s.snake.body ∨
                s1.snake.body = (head :: s.snake.body).dropLast)))) := by
  obtain ⟨hne, hnd, hg⟩ := bodyInv_reachable s hs
  refine ⟨hne, hnd, hg, ?_⟩
  intro draws s1 rest h
  obtain ⟨head, hh, hb⟩ := tick_body h
  refine ⟨head, hh, ?_⟩
  rcases hb with hb | ⟨ho, hc, hb⟩
  · exact Or.inl hb
  · exact Or.inr ⟨ho, (checkSelfCollision_eq_false_iff _ _).mp hc, hb⟩

/-- C12 on the reachable state `levelTwoState`: the snake of eight segments in column
15, rows 8 to 15, has pairwise distinct cells, all inside the grid. -/
theorem body_distinct_in_grid_witness :
    levelTwoState.snake.body
        = [{ x := 15, y := 8 }, { x := 15, y := 9 }, { x := 15, y := 10 },
            { x := 15, y := 11 }, { x := 15, y := 12 }, { x := 15, y := 13 },
            { x := 15, y := 14 }, { x := 15, y := 15 }] ∧
      levelTwoState.snake.body.Nodup ∧
      ∀ c ∈ levelTwoState.snake.body,
        (0 ≤ c.x ∧ c.x < tileCountX) ∧ (0 ≤ c.y ∧ c.y < tileCountY) :=
  ⟨by decide!, (body_distinct_in_grid levelTwoState levelTwoState_reachable).2.1,
    (body_distinct_in_grid levelTwoState levelTwoState_reachable).2.2.1⟩

end NeonSnake
